import Mathlib

/- Verification of the connection orchestration engine of the ldap3 client
   library (`src/ldap3/core/connection.py`, class `Connection`) against its
   natural-language specification.

   The Python class is shallowly embedded as explicit state passing over
   `ConnState`.  Each operation returns the new session state, a trace of
   observable actions (messages sent, lifecycle sub-calls made, TLS
   handshakes, metadata reads) and either a return value or a raised error.
   External collaborators that live outside the analysed source (the
   transport-strategy classes, the TLS collaborator, the server-metadata
   reader, the SASL negotiators) enter through an `Env` record of oracles;
   every definition modelled from the specification instead of the source is
   marked `Modelled from the spec:` in its doc comment. -/

namespace Ldap3

/-- Outcome record of one protocol exchange, mirroring the Python result
dictionary `{'type': ..., 'result': ..., 'description': ...}`. -/
structure ResultRec where
  type : String
  result : Nat
  description : String
deriving DecidableEq

/-- The LDAP success result code (`RESULT_SUCCESS`). -/
def RESULT_SUCCESS : Nat := 0

/-- The client strategy kinds accepted by `Connection.__init__`
(SYNC, ASYNC, LDIF, RESTARTABLE, REUSABLE, MOCK_SYNC, MOCK_ASYNC). -/
inductive StrategyKind
  | sync | async | ldif | restartable | reusable | mockSync | mockAsync
deriving DecidableEq

/-- Modelled from the spec: the `synchronous` capability flag of each
transport-strategy variant (the strategy classes live outside the analysed
source).  Synchronous, AutoRestart, OfflineProducer and the synchronous mock
execute synchronously; Asynchronous, Pooled and the asynchronous mock do not. -/
def StrategyKind.syncCap : StrategyKind → Bool
  | .sync | .ldif | .restartable | .mockSync => true
  | .async | .reusable | .mockAsync => false

/-- Modelled from the spec: only the Pooled (reusable) strategy is pooled. -/
def StrategyKind.pooled : StrategyKind → Bool
  | .reusable => true
  | _ => false

/-- The authentication kinds accepted by `Connection.__init__`
(ANONYMOUS, SIMPLE, SASL, NTLM). -/
inductive AuthKind
  | anonymous | simple | sasl | ntlm
deriving DecidableEq

/-- One element of a search response sequence: its message type tag, the
entry's distinguished name and the keys of its attribute dictionary. -/
structure SearchEntry where
  type : String
  dn : String
  attrs : List String
deriving DecidableEq

/-- Error kinds of the engine's error taxonomy.  `pythonError` stands for a
plain Python runtime error (ValueError/TypeError) escaping from the code, as
opposed to an error kind the engine detects and reports. -/
inductive ErrKind
  | unknownStrategy | unknownAuthMethod | saslMechanismNotSupported | bindFailure
  | readOnlyViolation | changesError | objectClassError | objectError
  | packageUnavailable | transportFailure | unsupportedOperation | pythonError
deriving DecidableEq

/-- A raised error: its kind and its message text. -/
structure LDAPError where
  kind : ErrKind
  msg : String
deriving DecidableEq

/-- The session-visible state of a `Connection` object: configuration,
lifecycle flags, deferred-execution flags and result state.  The
`outstanding` table (handle → request type) is modelled from the spec: it is
owned by the strategy, outside the analysed source. -/
structure ConnState where
  strategyType : StrategyKind
  authentication : AuthKind
  user : Option String
  password : Option String
  saslMechanism : Option String
  saslInProgress : Bool
  lazy : Bool
  readOnly : Bool
  closed : Bool
  bound : Bool
  tlsStarted : Bool
  deferredOpen : Bool
  deferredBind : Bool
  deferredStartTls : Bool
  bindControls : Option (List String)
  executingDeferred : Bool
  lastError : Option String
  response : Option (List SearchEntry)
  result : Option ResultRec
  entries : Option (List (SearchEntry × Finset String))
  outstanding : List (Nat × String)
deriving DecidableEq

/-- Observable actions of an operation: lifecycle sub-calls, protocol
messages sent, the TLS handshake, strategy close, server-metadata reads, and
the resolution of a bind outcome. -/
inductive Action
  | openCall (readServerInfo : Bool)
  | startTlsCall (readServerInfo : Bool)
  | bindCall (readServerInfo : Bool) (controls : Option (List String))
  | refreshCall
  | tlsHandshake
  | strategyClose
  | sendMsg (name : String)
  | getInfo
  | resolvedResult (r : Option ResultRec)
deriving DecidableEq

/-- Parsed content of a Sicily (NTLM) bind response: the numeric result and
the advertised package list (`server_creds` split on `;`). -/
structure SicilyResp where
  result : Nat
  packages : List String

/-- Oracles for the external collaborators: transport open/send outcomes, the
TLS collaborator's outcome, per-exchange result records, the asynchronous
`get_response` outcome, the SASL negotiator's outcome, NTLM package
availability and parsed Sicily responses, and the server-metadata reader
(which may rewrite the session's response/result/entries state). -/
structure Env where
  openOk : Bool
  sendOk : Bool
  tlsResult : Bool
  ntlmSupport : Bool
  msgId : Nat
  ldifOut : String
  exchange : Nat → ResultRec
  responses : Nat → List SearchEntry
  asyncResult : Option ResultRec
  saslResult : Option ResultRec
  sicily : Nat → SicilyResp
  getInfo : Option (List SearchEntry) → Option ResultRec →
    Option (List (SearchEntry × Finset String)) →
    Option (List SearchEntry) × Option ResultRec ×
      Option (List (SearchEntry × Finset String))

/-- A session operation: explicit state passing returning the new state, the
action trace, and either a value or a raised error (the state at raise
time is kept, so post-raise session state is observable). -/
abbrev M (α : Type) := ConnState → ConnState × List Action × Except LDAPError α

/-- Return a value, no state change, no actions. -/
def mret {α : Type} (a : α) : M α := fun s => (s, [], .ok a)

/-- Sequencing: run `x`; on success feed its value to `f`; a raised error
aborts the rest, keeping the state and trace accumulated so far. -/
def mbind {α β : Type} (x : M α) (f : α → M β) : M β := fun s =>
  match x s with
  | (s₁, tr, .error e) => (s₁, tr, .error e)
  | (s₁, tr, .ok a) =>
    match f a s₁ with
    | (s₂, tr₂, r) => (s₂, tr ++ tr₂, r)

/-- Sequencing discarding the first value. -/
def mseq {α β : Type} (x : M α) (y : M β) : M β := mbind x (fun _ => y)

/-- Record an observable action. -/
def emit (a : Action) : M Unit := fun s => (s, [a], .ok ())

/-- Read the current session state. -/
def getS : M ConnState := fun s => (s, [], .ok s)

/-- Update the session state. -/
def modifyS (f : ConnState → ConnState) : M Unit := fun s => (f s, [], .ok ())

/-- Raise an error without touching `lastError` (used for the raise sites
that do not set it, and for plain Python runtime errors). -/
def raiseErr {α : Type} (k : ErrKind) (m : String) : M α :=
  fun s => (s, [], .error ⟨k, m⟩)

/-- Set `lastError` to the message and raise, as
`self.last_error = ...; raise ...(self.last_error)` does. -/
def raiseSet {α : Type} (k : ErrKind) (m : String) : M α :=
  fun s => ({s with lastError := some m}, [], .error ⟨k, m⟩)

/-! ## External collaborators (transport strategy, TLS, metadata, SASL) -/

/-- Return value of `post_send_single_response` / `post_send_search`: the
resolved response for synchronous strategies, a correlation handle (message
id, an `int`) for asynchronous ones, or rendered text for the offline
producer. -/
inductive PSRet
  | resp
  | handle (n : Nat)
  | strval (v : String)
deriving DecidableEq

/-- Modelled from the spec: `strategy.send` transmits one protocol message; a
transport-level failure sets `lastError` and raises a TransportFailure-kind
error (propagation policy of the spec's error-handling design). -/
def sendRaw (env : Env) (name : String) : M Unit :=
  mseq (emit (.sendMsg name)) (fun s =>
    if env.sendOk then (s, [], .ok ())
    else ({s with lastError := some "socket sending error"}, [],
      .error ⟨.transportFailure, "socket sending error"⟩))

/-- Modelled from the spec: `post_send_single_response` — synchronous
strategies block, store the exchange outcome into the session's
`result`/`response` state and return the response; asynchronous strategies
return a correlation handle; the offline (LDIF) producer returns the
rendered change-record text. -/
def postSendSingle (env : Env) (k : Nat) (name : String) : M PSRet :=
  mseq (sendRaw env name) (fun s =>
    if s.strategyType = .ldif then (s, [], .ok (.strval env.ldifOut))
    else if s.strategyType.syncCap then
      ({s with result := some (env.exchange k), response := some (env.responses k)},
        [], .ok .resp)
    else (s, [], .ok (.handle env.msgId)))

/-- Modelled from the spec: `post_send_search`, as `postSendSingle` but for
search requests; read-type operations are not meaningful on the offline
producer and report an unsupported-operation error there. -/
def postSendSearch (env : Env) (k : Nat) (name : String) : M PSRet :=
  mseq (sendRaw env name) (fun s =>
    if s.strategyType = .ldif then
      ({s with lastError := some "operation not supported on this strategy"}, [],
        .error ⟨.unsupportedOperation, "operation not supported on this strategy"⟩)
    else if s.strategyType.syncCap then
      ({s with result := some (env.exchange k), response := some (env.responses k)},
        [], .ok .resp)
    else (s, [], .ok (.handle env.msgId)))

/-- Modelled from the spec: `strategy.close` releases the transport handle(s)
and resets `closed = true`; per the data-model invariant that `bound` and
`closed` cannot coexist once deferred state is resolved, close also clears
`bound`. -/
def closeOp : M Unit :=
  mseq (emit .strategyClose)
    (modifyS (fun s => {s with closed := true, bound := false}))

/-- `Connection.refresh_server_info`: for non-pooled strategies, when the
session is open, save `response`/`result`/`_entries`, read the server
metadata (`server.get_info_from_server`, an external collaborator modelled by
`env.getInfo`, which may rewrite exactly those three fields), and restore the
saved values; pooled strategies delegate to the pool's own metadata read. -/
def refresh_server_info (env : Env) : M Unit :=
  mseq (emit .refreshCall) (fun s =>
    if s.strategyType.pooled then (s, [.getInfo], .ok ())
    else if s.closed then (s, [], .ok ())
    else
      let previousResponse := s.response
      let previousResult := s.result
      let previousEntries := s.entries
      let (r, q, e) := env.getInfo s.response s.result s.entries
      let s₁ : ConnState := {s with response := r, result := q, entries := e}
      let s₂ : ConnState :=
        {s₁ with response := previousResponse, result := previousResult, entries := previousEntries}
      (s₂, [.getInfo], .ok ()))

/-- Modelled from the spec: `strategy.open` — in lazy mode outside deferred
execution it only records the deferred-open intent and optimistically marks
the session open; otherwise it is a no-op when already open, and else
establishes the transport (clearing `closed` and consuming any deferred-open
intent), optionally refreshing server metadata; a transport failure sets
`lastError` and raises. -/
def openOp (env : Env) (read_server_info : Bool) : M Unit :=
  mseq (emit (.openCall read_server_info)) (fun s =>
    if s.lazy && !s.executingDeferred then
      ({s with deferredOpen := true, closed := false}, [], .ok ())
    else if !s.closed then (s, [], .ok ())
    else if env.openOk then
      (mseq (modifyS (fun s₁ => {s₁ with closed := false, deferredOpen := false}))
        (if read_server_info then refresh_server_info env else mret ())) s
    else ({s with lastError := some "socket connection error"}, [],
      .error ⟨.transportFailure, "socket connection error"⟩))

/-- `Connection.start_tls`: in lazy mode outside deferred execution, record
the deferred intent, mark TLS started and report success; otherwise clear the
deferred flag, run the external TLS collaborator's handshake
(`server.tls.start_tls`, outcome `env.tlsResult`); on success with a
synchronous strategy optionally refresh metadata and return true; an
asynchronous strategy returns true regardless; otherwise return false. -/
def start_tls (env : Env) (read_server_info : Bool) : M Bool :=
  mseq (emit (.startTlsCall read_server_info)) (fun s =>
    if s.lazy && !s.executingDeferred then
      ({s with deferredStartTls := true, tlsStarted := true}, [], .ok true)
    else
      (mseq (modifyS (fun s₁ => {s₁ with deferredStartTls := false}))
        (mseq (emit .tlsHandshake)
          (mbind getS (fun st =>
            if env.tlsResult && st.strategyType.syncCap then
              mseq (if read_server_info then refresh_server_info env else mret ())
                (mret true)
            else if !st.strategyType.syncCap then mret true
            else mret false)))) s)

/-- The SASL mechanisms the engine supports (`SASL_AVAILABLE_MECHANISMS`). -/
def SASL_AVAILABLE_MECHANISMS : List String := ["EXTERNAL", "DIGEST-MD5"]

/-- Modelled from the spec: the mechanism negotiators (`sasl_external`,
`sasl_digest_md5`) are external collaborators returning the final outcome;
they perform the negotiation rounds through the same send path and leave the
session's result state at that outcome. -/
def saslNegotiator (env : Env) : M (Option ResultRec) := fun s =>
  ({s with result := env.saslResult}, [], .ok env.saslResult)

/-- `Connection.do_sasl_bind`: guarded by `sasl_in_progress`; when not already
in progress, set the flag, dispatch to the mechanism negotiator, clear the
flag and return its outcome; when re-entered, return no outcome. -/
def do_sasl_bind (env : Env) (_controls : Option (List String)) :
    M (Option ResultRec) := fun s =>
  if s.saslInProgress then (s, [], .ok none)
  else
    (mseq (modifyS (fun s₁ => {s₁ with saslInProgress := true}))
      (mbind (saslNegotiator env) (fun r =>
        mseq (modifyS (fun s₁ => {s₁ with saslInProgress := false}))
          (mret r)))) s

/-! ## bind -/

/-- Python truthiness of an optional string (None and `''` are falsy). -/
def truthyStr : Option String → Bool
  | none => false
  | some v => !v.isEmpty

/-- The NTLM (Sicily) rounds of `Connection.bind`: the two-element unpack of
`user.split('\\', 1)` raises a `ValueError` exactly when the user string has
no `\` domain qualifier (tested here as backslash membership), fail when the
ntlm package is absent (note: without setting `lastError`), then send the
package-discovery request, and when the reply advertises NTLM send the
negotiate request and, on a success result, the challenge-response request.
A correlation handle or producer text instead of a response makes the
response subscripting fail as in Python. -/
def ntlmBindRounds (env : Env) : M (Option ResultRec) :=
  mbind getS (fun s =>
    if !(s.user.getD "").data.contains (Char.ofNat 92) then
      raiseErr .pythonError "need more than 1 value to unpack"
    else if !env.ntlmSupport then
      raiseErr .packageUnavailable "package ntlm3 not present"
    else
      mbind (postSendSingle env 0 "bindRequest") (fun r1 =>
        match r1 with
        | .resp =>
          if (env.sicily 0).packages.contains "NTLM" then
            mseq (postSendSingle env 1 "bindRequest")
              (if (env.sicily 1).result = RESULT_SUCCESS then
                mseq (postSendSingle env 2 "bindRequest") (mret none)
              else mret none)
          else mret none
        | _ => raiseErr .pythonError "bind response is not subscriptable"))

/-- The authentication dispatch of `Connection.bind` (anonymous / simple /
SASL / NTLM); returns the value of the local `response` variable in the one
case where the outcome resolution later reads it (SASL). -/
def bindAuth (env : Env) (controls : Option (List String)) :
    M (Option ResultRec) :=
  mbind getS (fun s =>
    match s.authentication with
    | .anonymous => mseq (postSendSingle env 0 "bindRequest") (mret none)
    | .simple => mseq (postSendSingle env 0 "bindRequest") (mret none)
    | .sasl =>
      if (match s.saslMechanism with
          | some m => SASL_AVAILABLE_MECHANISMS.contains m
          | none => false) then
        do_sasl_bind env controls
      else raiseSet .saslMechanismNotSupported "requested SASL mechanism not supported"
    | .ntlm =>
      if truthyStr s.user && truthyStr s.password then ntlmBindRounds env
      else raiseSet .unknownAuthMethod "NTLM needs domain\\username and a password")

/-- The outcome-resolution chain of `Connection.bind`: for asynchronous
strategies outside SASL ask `get_response` for the result; for synchronous
strategies take the session's `result`; for (asynchronous) SASL take the
negotiator's return value.  The remaining branches of the source chain are
unreachable and mirror its final unknown-authentication raise. -/
def bindResolutionResult (env : Env) (saslRet : Option ResultRec) :
    M (Option ResultRec) := fun s =>
  if !s.strategyType.syncCap && !(s.authentication == .sasl) then
    (s, [], .ok env.asyncResult)
  else if s.strategyType.syncCap then (s, [], .ok s.result)
  else if s.authentication == .sasl then (s, [], .ok saslRet)
  else
    ({s with lastError := some "unknown authentication method"}, [],
      .error ⟨.unknownAuthMethod, "unknown authentication method"⟩)

/-- The common tail of `Connection.bind`: invalidate the materialized
entries and return `self.bound`. -/
def bindFinish : M Bool :=
  mseq (modifyS (fun s => {s with entries := none}))
    (mbind getS (fun s => mret s.bound))

/-- The `if self.closed: self.open(read_server_info=False)` step of `bind`. -/
def bindOpenStep (env : Env) : M Unit :=
  mbind getS (fun st => if st.closed then openOp env false else mret ())

/-- Lines 445-448 of the source: the value `bound` is set to — with a result,
whether its numeric code is `RESULT_SUCCESS`; with no result, whether the
strategy kind is the reusable (pooled) one. -/
def resolveBound (k : StrategyKind) (result : Option ResultRec) : Bool :=
  match result with
  | none => k == .reusable
  | some r => r.result == RESULT_SUCCESS

/-- Line 445-448 of the source: set `self.bound` from the resolved result. -/
def bindSetBound (result : Option ResultRec) : M Unit :=
  modifyS (fun s₁ => {s₁ with bound := resolveBound s₁.strategyType result})

/-- Line 450-451 of the source: on an unsuccessful bind with a non-empty
result description, record it in `lastError`. -/
def bindSetLastError (result : Option ResultRec) : M Unit :=
  modifyS (fun s₁ =>
    if !s₁.bound &&
        (match result with
         | none => false
         | some r => !r.description.isEmpty) then
      {s₁ with lastError := some ((result.getD ⟨"", 0, ""⟩).description)}
    else s₁)

/-- Line 453-454 of the source: refresh server metadata when requested and
bound. -/
def bindRefreshStep (env : Env) (read_server_info : Bool) : M Unit :=
  mbind getS (fun st =>
    if read_server_info && st.bound then refresh_server_info env else mret ())

/-- The non-deferred part of `bind` after the open step: authentication
dispatch, outcome resolution, `bound` update, failure description, optional
metadata refresh, entries invalidation. -/
def bindTail (env : Env) (read_server_info : Bool) (controls : Option (List String)) :
    M Bool :=
  mbind (bindAuth env controls) (fun saslRet =>
    mbind (bindResolutionResult env saslRet) (fun result =>
      mseq (emit (.resolvedResult result))
        (mseq (bindSetBound result)
          (mseq (bindSetLastError result)
            (mseq (bindRefreshStep env read_server_info) bindFinish)))))

/-- `Connection.bind`: in lazy mode outside deferred execution, record the
deferred-bind intent, stash the controls and optimistically set `bound`;
otherwise clear the deferred state, open the transport when closed, run the
authentication dispatch, resolve the outcome, set
`bound = (result['result'] == RESULT_SUCCESS)` (a missing result means bound
exactly for the reusable strategy), record the failure description in
`lastError`, and on a bound session optionally refresh server metadata.
Both paths invalidate the entries and return `bound`. -/
def bind (env : Env) (read_server_info : Bool) (controls : Option (List String)) :
    M Bool :=
  mseq (emit (.bindCall read_server_info controls)) (fun s =>
    if s.lazy && !s.executingDeferred then
      (mseq (modifyS (fun s₁ =>
          {s₁ with deferredBind := true, bindControls := controls, bound := true}))
        bindFinish) s
    else
      (mseq (modifyS (fun s₁ => {s₁ with deferredBind := false, bindControls := none}))
        (mseq (bindOpenStep env) (bindTail env read_server_info controls))) s)

/-- `Connection.unbind`: in lazy mode outside deferred execution with a
deferred bind or open pending, close the strategy and clear the deferred
flags; otherwise when open, send the unbind request (fire-and-forget) and
close the strategy; always return true on completion. -/
def unbind (env : Env) (_controls : Option (List String)) : M Bool := fun s =>
  if s.lazy && !s.executingDeferred && (s.deferredBind || s.deferredOpen) then
    (mseq closeOp
      (mseq (modifyS (fun s₁ =>
          {s₁ with deferredOpen := false, deferredBind := false, deferredStartTls := false}))
        (mret true))) s
  else if !s.closed then
    (mseq (sendRaw env "unbindRequest") (mseq closeOp (mret true))) s
  else (s, [], .ok true)

/-! ## Deferred resolution and the other operations -/

/-- `Connection._fire_deferred`: when lazy and not already executing deferred
work, set the re-entrancy flag and, in order, perform the pending open
(without metadata read), the pending TLS upgrade (without metadata read), the
pending bind (without metadata read, with the stashed controls), and one
metadata refresh; the flag is cleared on every exit path (`finally`), and
errors re-raise. -/
def fire_deferred (env : Env) : M Unit := fun s =>
  if s.lazy && !s.executingDeferred then
    let body : M Unit :=
      mseq (mbind getS (fun st =>
          if st.deferredOpen then openOp env false else mret ()))
        (mseq (mbind getS (fun st =>
            if st.deferredStartTls then mseq (start_tls env false) (mret ())
            else mret ()))
          (mseq (mbind getS (fun st =>
              if st.deferredBind then mseq (bind env false st.bindControls) (mret ())
              else mret ()))
            (refresh_server_info env)))
    match body {s with executingDeferred := true} with
    | (s₁, tr, .error e) => ({s₁ with executingDeferred := false}, tr, .error e)
    | (s₁, tr, .ok _) => ({s₁ with executingDeferred := false}, tr, .ok ())
  else (s, [], .ok ())

/-- Return value of an operation: a resolved boolean outcome, a correlation
handle (asynchronous strategies), or producer text (offline strategy). -/
inductive OpRet
  | done (b : Bool)
  | pending (n : Nat)
  | strres (v : String)
deriving DecidableEq

/-- The common tail of the write-type operations: send the request, resolve
the outcome for synchronous strategies (returning early with the handle or
producer text otherwise), after invalidating the entries. -/
def opFinish (env : Env) (k : Nat) (reqName respType : String) : M OpRet :=
  mbind (postSendSingle env k reqName) (fun psr =>
    mseq (modifyS (fun s => {s with entries := none}))
      (match psr with
      | .handle n => mret (.pending n)
      | .strval v => mret (.strres v)
      | .resp =>
        mbind getS (fun s =>
          match s.result with
          | none => raiseErr .pythonError "NoneType is not subscriptable"
          | some r => mret (.done (r.type == respType && r.result == RESULT_SUCCESS)))))

/-- `Connection.search` (attribute-list preprocessing and paged-search
controls are handed to the external message builder and elided here): resolve
deferred work, send the search request, invalidate the entries, return the
correlation handle for asynchronous strategies, and otherwise report whether
the search completed with a non-empty response. -/
def search (env : Env) (_search_base _search_filter : String)
    (_controls : Option (List String)) : M OpRet :=
  mseq (fire_deferred env)
    (mbind (postSendSearch env 0 "searchRequest") (fun psr =>
      mseq (modifyS (fun s => {s with entries := none}))
        (match psr with
        | .handle n => mret (.pending n)
        | _ =>
          mbind getS (fun s =>
            match s.result with
            | none => raiseErr .pythonError "NoneType is not subscriptable"
            | some r =>
              mret (.done (r.type == "searchResDone" &&
                (match s.response with
                 | none => false
                 | some l => decide (0 < l.length))))))))

/-- Association lookup used by `Connection.add` for
`attributes[object_class_attr_name]`. -/
def lookupAssoc (l : List (String × List String)) (k : String) : List String :=
  match l.find? (fun p => p.1 == k) with
  | some p => p.2
  | none => []

/-- `Connection.add`: resolve deferred work, merge the `object_class`
parameter with any `objectClass`-named attribute (the source loop keeps the
last matching key; the Python `list(set(...))` de-duplication is modelled by
`List.dedup`, whose ordering the source does not rely on), fail when the
resulting object-class list is empty, and otherwise send the add request.
Note: the source has no read-only check here. -/
def add (env : Env) (_dn : String) (object_class : Option (List String))
    (attributes : List (String × List String)) (_controls : Option (List String)) :
    M OpRet :=
  mseq (fire_deferred env) (fun s =>
    let parm_object_class := object_class.getD []
    let object_class_attr_name :=
      match (attributes.filter (fun p => p.1.toLower == "objectclass")).getLast? with
      | some p => p.1
      | none => ""
    let attr_object_class :=
      if object_class_attr_name == "" then []
      else lookupAssoc attributes object_class_attr_name
    let merged := (parm_object_class ++ attr_object_class).dedup
    if merged.isEmpty then
      ({s with lastError := some "ObjectClass attribute is mandatory"}, [],
        .error ⟨.objectClassError, "ObjectClass attribute is mandatory"⟩)
    else (opFinish env 0 "addRequest" "addResponse") s)

/-- The read-only rejection shared by `delete`, `modify` and `modify_dn`. -/
def readOnlyRaise {α : Type} (s : ConnState) :
    ConnState × List Action × Except LDAPError α :=
  ({s with lastError := some "connection is read-only"}, [],
    .error ⟨.readOnlyViolation, "connection is read-only"⟩)

/-- `Connection.delete`: resolve deferred work, reject read-only sessions,
then send the delete request. -/
def delete (env : Env) (_dn : String) (_controls : Option (List String)) : M OpRet :=
  mseq (fire_deferred env) (fun s =>
    if s.readOnly then readOnlyRaise s
    else (opFinish env 0 "delRequest" "delResponse") s)

/-- One element of a Python change tuple: a change-type constant, a raw
integer, a string, or a value list. -/
inductive ChangeElem
  | mADD | mDELETE | mREPLACE | mINCREMENT
  | intv (n : Int)
  | strv (v : String)
  | vals (vs : List String)
deriving DecidableEq

/-- Membership of a tuple's first element in
`[MODIFY_ADD, MODIFY_DELETE, MODIFY_REPLACE, MODIFY_INCREMENT, 0, 1, 2, 3]`. -/
def allowedChangeOp : ChangeElem → Bool
  | .mADD | .mDELETE | .mREPLACE | .mINCREMENT => true
  | .intv n => n == 0 || n == 1 || n == 2 || n == 3
  | _ => false

/-- The `changes` argument of `modify`: either not a mapping at all, or a
mapping from attribute names to change tuples (tuples modelled as lists, so
the length check is expressible). -/
inductive ChangesInput
  | notMapping
  | mapping (l : List (String × List ChangeElem))
deriving DecidableEq

/-- The per-attribute validation loop of `Connection.modify`: a tuple of
length ≠ 2 is a malformed change; a first element outside the allowed
change-type codes is an unknown change type. -/
def validateChanges : List (String × List ChangeElem) → Option LDAPError
  | [] => none
  | (_, tup) :: rest =>
    if tup.length != 2 then some ⟨.changesError, "malformed change"⟩
    else if !allowedChangeOp (tup.headD (.strv "")) then
      some ⟨.changesError, "unknown change type"⟩
    else validateChanges rest

/-- `Connection.modify`: resolve deferred work, reject read-only sessions,
reject a change set that is not a mapping, empty, or fails the per-attribute
validation, and otherwise send the modify request. -/
def modify (env : Env) (_dn : String) (changes : ChangesInput)
    (_controls : Option (List String)) : M OpRet :=
  mseq (fire_deferred env) (fun s =>
    if s.readOnly then readOnlyRaise s
    else
      match changes with
      | .notMapping =>
        ({s with lastError := some "changes must be a dictionary"}, [],
          .error ⟨.changesError, "changes must be a dictionary"⟩)
      | .mapping l =>
        if l.isEmpty then
          ({s with lastError := some "no changes in modify request"}, [],
            .error ⟨.changesError, "no changes in modify request"⟩)
        else
          match validateChanges l with
          | some e => ({s with lastError := some e.msg}, [], .error e)
          | none => (opFinish env 0 "modifyRequest" "modifyResponse") s)

/-- `Connection.modify_dn`: resolve deferred work, reject read-only sessions,
reject a move (truthy `new_superior`) whose `dn` does not start with the
given relative DN, and otherwise send the modify-DN request. -/
def modify_dn (env : Env) (dn relative_dn : String) (_delete_old_dn : Bool)
    (new_superior : Option String) (_controls : Option (List String)) : M OpRet :=
  mseq (fire_deferred env) (fun s =>
    if s.readOnly then readOnlyRaise s
    else if (match new_superior with | some ns => !ns.isEmpty | none => false) &&
        !(dn.startsWith relative_dn) then
      ({s with lastError := some "DN cannot change while moving"}, [],
        .error ⟨.changesError, "DN cannot change while moving"⟩)
    else (opFinish env 0 "modDNRequest" "modDNResponse") s)

/-- `Connection.abandon`: resolve deferred work; when the strategy's
outstanding table is non-empty and holds the message id with a type other
than abandon/bind/unbind, send the abandon request (fire-and-forget), clear
`result`, `response` and the entries and return true; otherwise return
false. -/
def abandon (env : Env) (message_id : Nat) (_controls : Option (List String)) :
    M Bool :=
  mseq (fire_deferred env) (fun s =>
    if !s.outstanding.isEmpty then
      match s.outstanding.lookup message_id with
      | some ty =>
        if ["abandonRequest", "bindRequest", "unbindRequest"].contains ty then
          (s, [], .ok false)
        else
          (mseq (sendRaw env "abandonRequest")
            (mseq (modifyS (fun s₁ =>
                {s₁ with result := none, response := none, entries := none}))
              (mret true))) s
      | none => (s, [], .ok false)
    else (s, [], .ok false))

/-! ## Entries materialization (`Connection._get_entries`) -/

/-- The attribute-set signature of one search response:
`set(response['attributes'].keys())`. -/
def attrSet (r : SearchEntry) : Finset String := r.attrs.toFinset

/-- First pass of `_get_entries`: collect the distinct attribute sets in
first-seen order (`if resp_attr_set not in attr_sets: append`). -/
def collectAttrSets (rs : List SearchEntry) : List (Finset String) :=
  rs.foldl (fun acc r => if attrSet r ∈ acc then acc else acc ++ [attrSet r]) []

/-- Stable insertion into a list sorted by descending cardinality (the
element is placed before the first element of no larger cardinality). -/
def insertDescLen (x : Finset String) : List (Finset String) → List (Finset String)
  | [] => [x]
  | y :: ys => if y.card ≤ x.card then x :: y :: ys else y :: insertDescLen x ys

/-- `attr_sets.sort(key=lambda x: -len(x))`: a stable sort by descending
cardinality. -/
def sortDescLen (l : List (Finset String)) : List (Finset String) :=
  l.foldr insertDescLen []

/-- Second pass of `_get_entries`: keep an attribute set only when no
already-kept set is a superset of it (`if unique_set >= attr_set: break`). -/
def uniqueAttrSets (l : List (Finset String)) : List (Finset String) :=
  l.foldl (fun acc x => if acc.any (fun u => decide (x ⊆ u)) then acc else acc ++ [x]) []

/-- The grouping signatures `_get_entries` builds object definitions for. -/
def entrySignatures (rs : List SearchEntry) : List (Finset String) :=
  uniqueAttrSets (sortDescLen (collectAttrSets rs))

/-- The matching loop of `_get_entries`: each response is paired with the
first signature containing its attribute set (only `searchResEntry` responses
produce entries, but every response is matched); a response matching no
signature raises the data-inconsistency error. -/
def matchEntries (sigs : List (Finset String)) :
    List SearchEntry → Except String (List (SearchEntry × Finset String))
  | [] => .ok []
  | r :: rest =>
    match sigs.find? (fun u => decide (attrSet r ⊆ u)) with
    | none => .error "attribute set not found"
    | some u =>
      match matchEntries sigs rest with
      | .error e => .error e
      | .ok tail =>
        .ok ((if r.type == "searchResEntry" then [(r, u)] else []) ++ tail)

/-- `Connection._get_entries`: group the search responses by attribute-set
signature and produce one (entry, signature) pair per `searchResEntry`
response (the `Entry`/`ObjectDef`/`Reader` construction is an external
collaborator and is abstracted to the chosen signature). -/
def get_entries (rs : List SearchEntry) :
    Except String (List (SearchEntry × Finset String)) :=
  matchEntries (entrySignatures rs) rs


/-! ## Trace observations -/

/-- Whether an action is a lifecycle sub-call (open / startTls / bind /
metadata refresh). -/
def isLifecycleCall : Action → Bool
  | .openCall _ => true
  | .startTlsCall _ => true
  | .bindCall _ _ => true
  | .refreshCall => true
  | _ => false

/-- The lifecycle sub-calls of a trace, in order. -/
def callFilter (tr : List Action) : List Action := tr.filter isLifecycleCall

/-- The bind-outcome resolutions recorded in a trace, in order. -/
def resolvedEvents (tr : List Action) : List (Option ResultRec) :=
  tr.filterMap (fun a => match a with | .resolvedResult r => some r | _ => none)

theorem callFilter_append (a b : List Action) :
    callFilter (a ++ b) = callFilter a ++ callFilter b := by
  simp [callFilter, List.filter_append]

theorem resolvedEvents_append (a b : List Action) :
    resolvedEvents (a ++ b) = resolvedEvents a ++ resolvedEvents b := by
  simp [resolvedEvents, List.filterMap_append]

/-! ## Run lemmas for the monadic combinators -/

theorem mbind_ok_intro {α β : Type} {x : M α} {f : α → M β} {s s₁ s₂ : ConnState}
    {t₁ t₂ : List Action} {a : α} {r : Except LDAPError β}
    (hx : x s = (s₁, t₁, .ok a)) (hf : f a s₁ = (s₂, t₂, r)) :
    mbind x f s = (s₂, t₁ ++ t₂, r) := by
  unfold mbind
  rw [hx]
  dsimp only
  rw [hf]

theorem mbind_err_intro {α β : Type} {x : M α} {f : α → M β} {s s₁ : ConnState}
    {t₁ : List Action} {e : LDAPError} (hx : x s = (s₁, t₁, .error e)) :
    mbind x f s = (s₁, t₁, .error e) := by
  unfold mbind
  rw [hx]

theorem mbind_run {α β : Type} {x : M α} {f : α → M β} {s s₂ : ConnState}
    {tr : List Action} {r : Except LDAPError β} (h : mbind x f s = (s₂, tr, r)) :
    (∃ e, x s = (s₂, tr, .error e) ∧ r = .error e) ∨
    (∃ s₁ t₁ a t₂, x s = (s₁, t₁, .ok a) ∧ f a s₁ = (s₂, t₂, r) ∧ tr = t₁ ++ t₂) := by
  rcases hx : x s with ⟨s₁, t₁, rx⟩
  cases rx with
  | error e =>
    rw [mbind_err_intro hx] at h
    obtain ⟨h1, h2, h3⟩ : s₁ = s₂ ∧ t₁ = tr ∧ Except.error e = r := by
      simpa using h
    subst h1; subst h2
    exact .inl ⟨e, rfl, h3.symm⟩
  | ok a =>
    rcases hf : f a s₁ with ⟨sF, tF, rF⟩
    rw [mbind_ok_intro hx hf] at h
    obtain ⟨h1, h2, h3⟩ : sF = s₂ ∧ t₁ ++ tF = tr ∧ rF = r := by
      simpa using h
    subst h1; subst h3
    exact .inr ⟨s₁, t₁, a, tF, rfl, hf, h2.symm⟩

theorem mseq_run {α β : Type} {x : M α} {y : M β} {s s₂ : ConnState}
    {tr : List Action} {r : Except LDAPError β} (h : mseq x y s = (s₂, tr, r)) :
    (∃ e, x s = (s₂, tr, .error e) ∧ r = .error e) ∨
    (∃ s₁ t₁ t₂, (∃ a, x s = (s₁, t₁, .ok a)) ∧ y s₁ = (s₂, t₂, r) ∧ tr = t₁ ++ t₂) := by
  rcases mbind_run h with he | ⟨s₁, t₁, a, t₂, hx, hy, ht⟩
  · exact .inl he
  · exact .inr ⟨s₁, t₁, t₂, ⟨a, hx⟩, hy, ht⟩

theorem mseq_ok_intro {α β : Type} {x : M α} {y : M β} {s s₁ s₂ : ConnState}
    {t₁ t₂ : List Action} {a : α} {r : Except LDAPError β}
    (hx : x s = (s₁, t₁, .ok a)) (hy : y s₁ = (s₂, t₂, r)) :
    mseq x y s = (s₂, t₁ ++ t₂, r) := mbind_ok_intro hx hy


/-! ## Characterization of the primitives -/

theorem fire_deferred_guard {env : Env} {s : ConnState}
    (h : (s.lazy && !s.executingDeferred) = false) :
    fire_deferred env s = (s, [], .ok ()) := by
  unfold fire_deferred
  rw [h]
  simp

theorem fire_deferred_not_lazy {env : Env} {s : ConnState} (h : s.lazy = false) :
    fire_deferred env s = (s, [], .ok ()) := by
  apply fire_deferred_guard
  simp [h]

theorem fire_deferred_reentrant {env : Env} {s : ConnState}
    (h : s.executingDeferred = true) :
    fire_deferred env s = (s, [], .ok ()) := by
  apply fire_deferred_guard
  simp [h]

theorem sendRaw_ok {env : Env} {n : String} {s : ConnState} (h : env.sendOk = true) :
    sendRaw env n s = (s, [.sendMsg n], .ok ()) := by
  simp [sendRaw, mseq, mbind, emit, h]

theorem sendRaw_fail {env : Env} {n : String} {s : ConnState} (h : env.sendOk = false) :
    sendRaw env n s = ({s with lastError := some "socket sending error"},
      [.sendMsg n], .error ⟨.transportFailure, "socket sending error"⟩) := by
  simp [sendRaw, mseq, mbind, emit, h]


theorem emit_run (a : Action) (s : ConnState) : emit a s = (s, [a], .ok ()) := rfl

theorem mret_run {α : Type} (a : α) (s : ConnState) : mret a s = (s, [], .ok a) := rfl

theorem getS_run (s : ConnState) : getS s = (s, [], .ok s) := rfl

theorem modifyS_run (f : ConnState → ConnState) (s : ConnState) :
    modifyS f s = (f s, [], .ok ()) := rfl

theorem closeOp_run (s : ConnState) :
    closeOp s = ({s with closed := true, bound := false}, [.strategyClose], .ok ()) := rfl

theorem bindFinish_run (s : ConnState) :
    bindFinish s = ({s with entries := none}, [], .ok s.bound) := rfl

theorem postSendSingle_run (env : Env) (k : Nat) (n : String) (s : ConnState) :
    postSendSingle env k n s =
      if env.sendOk then
        (if s.strategyType = .ldif then (s, [.sendMsg n], .ok (.strval env.ldifOut))
         else if s.strategyType.syncCap then
           ({s with result := some (env.exchange k), response := some (env.responses k)},
             [.sendMsg n], .ok .resp)
         else (s, [.sendMsg n], .ok (.handle env.msgId)))
      else ({s with lastError := some "socket sending error"}, [.sendMsg n],
        .error ⟨.transportFailure, "socket sending error"⟩) := by
  cases hs : env.sendOk with
  | false => simp [postSendSingle, mseq, mbind, sendRaw, emit, hs]
  | true =>
    by_cases hl : s.strategyType = .ldif
    · simp [postSendSingle, mseq, mbind, sendRaw, emit, hs, hl]
    · cases hsy : s.strategyType.syncCap with
      | true => simp [postSendSingle, mseq, mbind, sendRaw, emit, hs, hl, hsy]
      | false => simp [postSendSingle, mseq, mbind, sendRaw, emit, hs, hl, hsy]

theorem postSendSearch_run (env : Env) (k : Nat) (n : String) (s : ConnState) :
    postSendSearch env k n s =
      if env.sendOk then
        (if s.strategyType = .ldif then
          ({s with lastError := some "operation not supported on this strategy"},
            [.sendMsg n],
            .error ⟨.unsupportedOperation, "operation not supported on this strategy"⟩)
         else if s.strategyType.syncCap then
           ({s with result := some (env.exchange k), response := some (env.responses k)},
             [.sendMsg n], .ok .resp)
         else (s, [.sendMsg n], .ok (.handle env.msgId)))
      else ({s with lastError := some "socket sending error"}, [.sendMsg n],
        .error ⟨.transportFailure, "socket sending error"⟩) := by
  cases hs : env.sendOk with
  | false => simp [postSendSearch, mseq, mbind, sendRaw, emit, hs]
  | true =>
    by_cases hl : s.strategyType = .ldif
    · simp [postSendSearch, mseq, mbind, sendRaw, emit, hs, hl]
    · cases hsy : s.strategyType.syncCap with
      | true => simp [postSendSearch, mseq, mbind, sendRaw, emit, hs, hl, hsy]
      | false => simp [postSendSearch, mseq, mbind, sendRaw, emit, hs, hl, hsy]

theorem refresh_server_info_run (env : Env) (s : ConnState) :
    refresh_server_info env s =
      (s, if s.strategyType.pooled || !s.closed then [.refreshCall, .getInfo]
        else [.refreshCall], .ok ()) := by
  cases hp : s.strategyType.pooled with
  | true => simp [refresh_server_info, mseq, mbind, emit, hp]
  | false =>
    cases hc : s.closed with
    | true => simp [refresh_server_info, mseq, mbind, emit, hp, hc]
    | false =>
      have he : ({s with closed := false} : ConnState) = s := by rw [← hc]
      simp [refresh_server_info, mseq, mbind, emit, hp, hc, he]

theorem openOp_false_run (env : Env) (s : ConnState) :
    openOp env false s =
      if s.lazy && !s.executingDeferred then
        ({s with deferredOpen := true, closed := false}, [.openCall false], .ok ())
      else if !s.closed then (s, [.openCall false], .ok ())
      else if env.openOk then
        ({s with closed := false, deferredOpen := false}, [.openCall false], .ok ())
      else ({s with lastError := some "socket connection error"}, [.openCall false],
        .error ⟨.transportFailure, "socket connection error"⟩) := by
  cases hg : s.lazy && !s.executingDeferred with
  | true => simp [openOp, mseq, mbind, emit, hg]
  | false =>
    cases hc : s.closed with
    | false => simp [openOp, mseq, mbind, emit, hg, hc]
    | true =>
      cases ho : env.openOk with
      | true => simp [openOp, mseq, mbind, emit, modifyS, mret, hg, hc, ho]
      | false => simp [openOp, mseq, mbind, emit, hg, hc, ho]

theorem start_tls_false_run (env : Env) (s : ConnState) :
    start_tls env false s =
      if s.lazy && !s.executingDeferred then
        ({s with deferredStartTls := true, tlsStarted := true}, [.startTlsCall false], .ok true)
      else
        ({s with deferredStartTls := false}, [.startTlsCall false, .tlsHandshake],
          .ok (env.tlsResult || !s.strategyType.syncCap)) := by
  cases hg : s.lazy && !s.executingDeferred with
  | true => simp [start_tls, mseq, mbind, emit, hg]
  | false =>
    cases ht : env.tlsResult with
    | true =>
      cases hsy : s.strategyType.syncCap with
      | true => simp [start_tls, mseq, mbind, emit, modifyS, getS, mret, hg, ht, hsy]
      | false => simp [start_tls, mseq, mbind, emit, modifyS, getS, mret, hg, ht, hsy]
    | false =>
      cases hsy : s.strategyType.syncCap with
      | true => simp [start_tls, mseq, mbind, emit, modifyS, getS, mret, hg, ht, hsy]
      | false => simp [start_tls, mseq, mbind, emit, modifyS, getS, mret, hg, ht, hsy]

theorem do_sasl_bind_run (env : Env) (c : Option (List String)) (s : ConnState) :
    do_sasl_bind env c s =
      if s.saslInProgress then (s, [], .ok none)
      else ({s with result := env.saslResult}, [], .ok env.saslResult) := by
  cases hp : s.saslInProgress with
  | true => simp [do_sasl_bind, hp]
  | false =>
    simp [do_sasl_bind, mseq, mbind, modifyS, mret, saslNegotiator, hp]


/-! ## Frame facts: fields preserved by the inner bind components -/

/-- The control-relevant fields (strategy/auth configuration, lifecycle and
deferred flags) that the inner components of `bind` never modify. -/
def sameCtl (s' s : ConnState) : Prop :=
  s'.strategyType = s.strategyType ∧ s'.authentication = s.authentication ∧
  s'.lazy = s.lazy ∧ s'.executingDeferred = s.executingDeferred ∧
  s'.closed = s.closed ∧ s'.bound = s.bound ∧
  s'.deferredOpen = s.deferredOpen ∧ s'.deferredBind = s.deferredBind ∧
  s'.deferredStartTls = s.deferredStartTls ∧ s'.bindControls = s.bindControls ∧
  s'.readOnly = s.readOnly

theorem sameCtl_refl (s : ConnState) : sameCtl s s := by
  unfold sameCtl
  exact ⟨rfl, rfl, rfl, rfl, rfl, rfl, rfl, rfl, rfl, rfl, rfl⟩

theorem sameCtl_trans {a b c : ConnState} (h₁ : sameCtl a b) (h₂ : sameCtl b c) :
    sameCtl a c := by
  unfold sameCtl at *
  obtain ⟨x1, x2, x3, x4, x5, x6, x7, x8, x9, x10, x11⟩ := h₁
  obtain ⟨y1, y2, y3, y4, y5, y6, y7, y8, y9, y10, y11⟩ := h₂
  exact ⟨x1.trans y1, x2.trans y2, x3.trans y3, x4.trans y4, x5.trans y5,
    x6.trans y6, x7.trans y7, x8.trans y8, x9.trans y9, x10.trans y10, x11.trans y11⟩

theorem postSendSingle_frame {env : Env} {k : Nat} {n : String} {s s' : ConnState}
    {tr : List Action} {r : Except LDAPError PSRet}
    (h : postSendSingle env k n s = (s', tr, r)) :
    tr = [.sendMsg n] ∧ sameCtl s' s := by
  rw [postSendSingle_run] at h
  split at h
  · split at h
    · obtain ⟨h1, h2, h3⟩ : s = s' ∧ [Action.sendMsg n] = tr ∧ _ = r := by
        simpa using h
      subst h1; subst h2
      exact ⟨rfl, sameCtl_refl _⟩
    · split at h
      · obtain ⟨h1, h2, h3⟩ : _ = s' ∧ [Action.sendMsg n] = tr ∧ _ = r := by
          simpa using h
        subst h1; subst h2
        exact ⟨rfl, sameCtl_refl _⟩
      · obtain ⟨h1, h2, h3⟩ : s = s' ∧ [Action.sendMsg n] = tr ∧ _ = r := by
          simpa using h
        subst h1; subst h2
        exact ⟨rfl, sameCtl_refl _⟩
  · obtain ⟨h1, h2, h3⟩ : _ = s' ∧ [Action.sendMsg n] = tr ∧ _ = r := by
      simpa using h
    subst h1; subst h2
    exact ⟨rfl, sameCtl_refl _⟩


/-- A component that emits no lifecycle calls and no outcome resolutions and
preserves the control fields, on every run (success or raise). -/
def CleanFrame {α : Type} (x : M α) : Prop :=
  ∀ s s' tr r, x s = (s', tr, r) →
    callFilter tr = [] ∧ resolvedEvents tr = [] ∧ sameCtl s' s

theorem cleanFrame_mret {α : Type} (a : α) : CleanFrame (mret a) := by
  intro s s' tr r h
  obtain ⟨h1, h2, h3⟩ : s = s' ∧ [] = tr ∧ _ = r := by simpa [mret] using h
  subst h1; subst h2
  exact ⟨rfl, rfl, sameCtl_refl _⟩

theorem cleanFrame_raiseErr {α : Type} (k : ErrKind) (m : String) :
    CleanFrame (raiseErr (α := α) k m) := by
  intro s s' tr r h
  obtain ⟨h1, h2, h3⟩ : s = s' ∧ [] = tr ∧ _ = r := by simpa [raiseErr] using h
  subst h1; subst h2
  exact ⟨rfl, rfl, sameCtl_refl _⟩

theorem cleanFrame_raiseSet {α : Type} (k : ErrKind) (m : String) :
    CleanFrame (raiseSet (α := α) k m) := by
  intro s s' tr r h
  obtain ⟨h1, h2, h3⟩ : _ = s' ∧ [] = tr ∧ _ = r := by simpa [raiseSet] using h
  subst h1; subst h2
  exact ⟨rfl, rfl, sameCtl_refl _⟩

theorem cleanFrame_mbind {α β : Type} {x : M α} {f : α → M β}
    (hx : CleanFrame x) (hf : ∀ a, CleanFrame (f a)) : CleanFrame (mbind x f) := by
  intro s s' tr r h
  rcases mbind_run h with ⟨e, hr, -⟩ | ⟨s₁, t₁, a, t₂, h₁, h₂, ht⟩
  · exact hx s s' tr _ hr
  · obtain ⟨c₁, r₁, f₁⟩ := hx s s₁ t₁ _ h₁
    obtain ⟨c₂, r₂, f₂⟩ := hf a s₁ s' t₂ _ h₂
    subst ht
    refine ⟨?_, ?_, sameCtl_trans f₂ f₁⟩
    · rw [callFilter_append, c₁, c₂]; rfl
    · rw [resolvedEvents_append, r₁, r₂]; rfl

theorem cleanFrame_mseq {α β : Type} {x : M α} {y : M β}
    (hx : CleanFrame x) (hy : CleanFrame y) : CleanFrame (mseq x y) :=
  cleanFrame_mbind hx (fun _ => hy)

theorem cleanFrame_postSendSingle (env : Env) (k : Nat) (n : String) :
    CleanFrame (postSendSingle env k n) := by
  intro s s' tr r h
  obtain ⟨ht, hf⟩ := postSendSingle_frame h
  subst ht
  exact ⟨rfl, rfl, hf⟩

theorem cleanFrame_do_sasl_bind (env : Env) (c : Option (List String)) :
    CleanFrame (do_sasl_bind env c) := by
  intro s s' tr r h
  rw [do_sasl_bind_run] at h
  split at h
  · obtain ⟨h1, h2, h3⟩ : s = s' ∧ [] = tr ∧ _ = r := by simpa using h
    subst h1; subst h2
    exact ⟨rfl, rfl, sameCtl_refl _⟩
  · obtain ⟨h1, h2, h3⟩ : _ = s' ∧ [] = tr ∧ _ = r := by simpa using h
    subst h1; subst h2
    exact ⟨rfl, rfl, sameCtl_refl _⟩

theorem cleanFrame_getS : CleanFrame getS := by
  intro s s' tr r h
  obtain ⟨h1, h2, h3⟩ : s = s' ∧ [] = tr ∧ _ = r := by simpa [getS] using h
  subst h1; subst h2
  exact ⟨rfl, rfl, sameCtl_refl _⟩

theorem cleanFrame_ntlmBindRounds (env : Env) : CleanFrame (ntlmBindRounds env) := by
  unfold ntlmBindRounds
  refine cleanFrame_mbind cleanFrame_getS ?_
  intro st
  dsimp only
  split
  · exact cleanFrame_raiseErr _ _
  · split
    · exact cleanFrame_raiseErr _ _
    · refine cleanFrame_mbind (cleanFrame_postSendSingle env 0 _) ?_
      intro r1
      match r1 with
      | .resp =>
        dsimp only
        split
        · refine cleanFrame_mseq (cleanFrame_postSendSingle env 1 _) ?_
          split
          · exact cleanFrame_mseq (cleanFrame_postSendSingle env 2 _) (cleanFrame_mret _)
          · exact cleanFrame_mret _
        · exact cleanFrame_mret _
      | .handle n => exact cleanFrame_raiseErr _ _
      | .strval v => exact cleanFrame_raiseErr _ _

theorem cleanFrame_bindAuth (env : Env) (c : Option (List String)) :
    CleanFrame (bindAuth env c) := by
  unfold bindAuth
  refine cleanFrame_mbind cleanFrame_getS ?_
  intro st
  dsimp only
  match st.authentication with
  | .anonymous =>
    exact cleanFrame_mseq (cleanFrame_postSendSingle env 0 _) (cleanFrame_mret _)
  | .simple =>
    exact cleanFrame_mseq (cleanFrame_postSendSingle env 0 _) (cleanFrame_mret _)
  | .sasl =>
    dsimp only
    split
    · exact cleanFrame_do_sasl_bind env c
    · exact cleanFrame_raiseSet _ _
  | .ntlm =>
    dsimp only
    split
    · exact cleanFrame_ntlmBindRounds env
    · exact cleanFrame_raiseSet _ _


theorem bindResolutionResult_ok {env : Env} {saslRet : Option ResultRec}
    {s s' : ConnState} {tr : List Action} {res : Option ResultRec}
    (h : bindResolutionResult env saslRet s = (s', tr, .ok res)) :
    s' = s ∧ tr = [] := by
  unfold bindResolutionResult at h
  split at h
  · obtain ⟨h1, h2, -⟩ : s = s' ∧ tr = [] ∧ env.asyncResult = res := by simpa using h
    exact ⟨h1.symm, h2⟩
  · split at h
    · obtain ⟨h1, h2, -⟩ : s = s' ∧ tr = [] ∧ s.result = res := by simpa using h
      exact ⟨h1.symm, h2⟩
    · split at h
      · obtain ⟨h1, h2, -⟩ : s = s' ∧ tr = [] ∧ saslRet = res := by simpa using h
        exact ⟨h1.symm, h2⟩
      · exact absurd h (by simp)

theorem bind_deferred_run {env : Env} {rsi : Bool} {c : Option (List String)}
    {s : ConnState} (hg : (s.lazy && !s.executingDeferred) = true) :
    bind env rsi c s =
      ({s with deferredBind := true, bindControls := c, bound := true, entries := none},
        [.bindCall rsi c], .ok true) := by
  simp [bind, mseq, mbind, emit, modifyS, bindFinish, getS, mret, hg]


theorem mbind_getS {β : Type} (f : ConnState → M β) (s : ConnState) :
    mbind getS f s = f s s := rfl


theorem bindSetBound_run (result : Option ResultRec) (s : ConnState) :
    bindSetBound result s =
      ({s with bound := resolveBound s.strategyType result}, [], .ok ()) := rfl

theorem bindSetLastError_run (result : Option ResultRec) (s : ConnState) :
    ∃ le, bindSetLastError result s = ({s with lastError := le}, [], .ok ()) := by
  unfold bindSetLastError modifyS
  dsimp only
  split
  · exact ⟨_, rfl⟩
  · exact ⟨s.lastError, rfl⟩

theorem bindRefreshStep_run (env : Env) (rsi : Bool) (s : ConnState) :
    bindRefreshStep env rsi s =
      (s, if rsi && s.bound then
          (if s.strategyType.pooled || !s.closed then [.refreshCall, .getInfo]
           else [.refreshCall])
        else [], .ok ()) := by
  unfold bindRefreshStep
  rw [mbind_getS]
  cases hc : rsi && s.bound with
  | true => simp [hc, refresh_server_info_run]
  | false => simp [hc, mret]




theorem triple_eq_fst {α β γ : Type} {a c : α} {b d : β} {r q : γ}
    (h : (a, b, r) = (c, d, q)) : a = c := congrArg Prod.fst h

theorem triple_eq_snd {α β γ : Type} {a c : α} {b d : β} {r q : γ}
    (h : (a, b, r) = (c, d, q)) : b = d := congrArg (fun p => p.2.1) h

theorem triple_eq_thd {α β γ : Type} {a c : α} {b d : β} {r q : γ}
    (h : (a, b, r) = (c, d, q)) : r = q := congrArg (fun p => p.2.2) h

theorem bindTail_ok {env : Env} {rsi : Bool} {c : Option (List String)}
    {s0 s' : ConnState} {t : List Action} {b : Bool}
    (h : bindTail env rsi c s0 = (s', t, .ok b)) :
    ∃ r₀ tA tPost,
      t = tA ++ (.resolvedResult r₀ :: tPost) ∧
      callFilter tA = [] ∧ resolvedEvents tA = [] ∧ resolvedEvents tPost = [] ∧
      (callFilter tPost = [] ∨ callFilter tPost = [.refreshCall]) ∧
      (rsi = false → callFilter tPost = []) ∧
      s'.bound = resolveBound s0.strategyType r₀ ∧
      b = s'.bound ∧ s'.closed = s0.closed ∧ s'.lazy = s0.lazy ∧
      s'.executingDeferred = s0.executingDeferred ∧
      s'.strategyType = s0.strategyType ∧ s'.deferredBind = s0.deferredBind := by
  unfold bindTail at h
  rcases mbind_run h with ⟨e, -, hre⟩ | ⟨sA, tA0, saslRet, t₂, hA, h₂, ht⟩
  · cases hre
  obtain ⟨cA, rA, fA⟩ := cleanFrame_bindAuth env c s0 sA tA0 _ hA
  obtain ⟨f1, f2, f3, f4, f5, f6, f7, f8, f9, f10, f11⟩ := fA
  rcases mbind_run h₂ with ⟨e, -, hre⟩ | ⟨sR, tR, result, t₃, hR, h₃, ht₂⟩
  · cases hre
  obtain ⟨hsR, htR⟩ := bindResolutionResult_ok hR
  rw [hsR] at h₃
  rcases mbind_run h₃ with ⟨e, -, hre⟩ | ⟨sE, tE, aE, t₄, hE, h₄, ht₃⟩
  · cases hre
  rw [emit_run] at hE
  have hsE := triple_eq_fst hE
  have htE := triple_eq_snd hE
  rw [← hsE] at h₄
  rcases mbind_run h₄ with ⟨e, -, hre⟩ | ⟨sB, tB, aB, t₅, hB, h₅, ht₄⟩
  · cases hre
  rw [bindSetBound_run] at hB
  have hsB := triple_eq_fst hB
  have htB := triple_eq_snd hB
  rcases mbind_run h₅ with ⟨e, -, hre⟩ | ⟨sC, tC, aC, t₆, hC, h₆, ht₅⟩
  · cases hre
  obtain ⟨le, hle⟩ := bindSetLastError_run result sB
  rw [hle] at hC
  have hsC := triple_eq_fst hC
  have htC := triple_eq_snd hC
  rcases mbind_run h₆ with ⟨e, -, hre⟩ | ⟨sD, tD, aD, t₇, hD, h₇, ht₆⟩
  · cases hre
  rw [bindRefreshStep_run] at hD
  have hsD := triple_eq_fst hD
  have htD := triple_eq_snd hD
  rw [← hsD] at h₇
  rw [bindFinish_run] at h₇
  have hs' := triple_eq_fst h₇
  have ht₇ := triple_eq_snd h₇
  have hbb : sC.bound = b := Except.ok.inj (triple_eq_thd h₇)
  have hBound : s'.bound = resolveBound s0.strategyType result := by
    rw [← hs', ← hsC, ← hsB]
    dsimp only
    rw [f1]
  have hClosed : s'.closed = s0.closed := by rw [← hs', ← hsC, ← hsB]; exact f5
  have hLazy : s'.lazy = s0.lazy := by rw [← hs', ← hsC, ← hsB]; exact f3
  have hExec : s'.executingDeferred = s0.executingDeferred := by
    rw [← hs', ← hsC, ← hsB]; exact f4
  have hStrat : s'.strategyType = s0.strategyType := by
    rw [← hs', ← hsC, ← hsB]; exact f1
  have hDefB : s'.deferredBind = s0.deferredBind := by
    rw [← hs', ← hsC, ← hsB]; exact f8
  have hbb' : b = s'.bound := by rw [← hbb, ← hs', ← hsC, ← hsB]
  refine ⟨result, tA0, tD, ?_, cA, rA, ?_, ?_, ?_, hBound, hbb', hClosed, hLazy,
    hExec, hStrat, hDefB⟩
  · rw [ht, ht₂, htR, ht₃, ← htE, ht₄, ← htB, ht₅, ← htC, ht₆, ← ht₇]
    simp
  · rw [← htD]
    split
    · split <;> rfl
    · rfl
  · rw [← htD]
    split
    · split
      · right; rfl
      · right; rfl
    · left; rfl
  · intro hrsi
    rw [← htD, hrsi]
    simp [callFilter]


theorem bind_real_ok {env : Env} {rsi : Bool} {c : Option (List String)}
    {s s' : ConnState} {tr : List Action} {b : Bool}
    (hg : (s.lazy && !s.executingDeferred) = false)
    (h : bind env rsi c s = (s', tr, .ok b)) :
    ∃ r₀ tA tPost,
      tr = .bindCall rsi c :: (tA ++ (.resolvedResult r₀ :: tPost)) ∧
      callFilter tA = (if s.closed then [.openCall false] else []) ∧
      resolvedEvents tA = [] ∧ resolvedEvents tPost = [] ∧
      (callFilter tPost = [] ∨ callFilter tPost = [.refreshCall]) ∧
      (rsi = false → callFilter tPost = []) ∧
      s'.bound = resolveBound s.strategyType r₀ ∧
      b = s'.bound ∧ s'.closed = false ∧
      s'.lazy = s.lazy ∧ s'.executingDeferred = s.executingDeferred ∧
      s'.strategyType = s.strategyType ∧ s'.deferredBind = false := by
  unfold bind at h
  rcases mbind_run h with ⟨e, -, hre⟩ | ⟨s₁, t₁, a, t₂, h₁, h₂, ht⟩
  · cases hre
  rw [emit_run] at h₁
  have hs₁ := triple_eq_fst h₁
  have ht₁ := triple_eq_snd h₁
  rw [← hs₁] at h₂
  rw [if_neg (by simp [hg])] at h₂
  -- the modifyS clearing the deferred-bind state
  rcases mbind_run h₂ with ⟨e, -, hre⟩ | ⟨sM, tM, aM, t₃, hM, h₃, ht₂⟩
  · cases hre
  rw [modifyS_run] at hM
  have hsM := triple_eq_fst hM
  have htM := triple_eq_snd hM
  -- field facts about sM
  have eLazy : sM.lazy = s.lazy := by rw [← hsM]
  have eExec : sM.executingDeferred = s.executingDeferred := by rw [← hsM]
  have eClosed : sM.closed = s.closed := by rw [← hsM]
  have eStrat : sM.strategyType = s.strategyType := by rw [← hsM]
  have eG : (sM.lazy && !sM.executingDeferred) = false := by
    rw [eLazy, eExec]; exact hg
  -- the open-if-closed step
  rcases mbind_run h₃ with ⟨e, -, hre⟩ | ⟨sO, tO, aO, t₄, hO, h₄, ht₃⟩
  · cases hre
  unfold bindOpenStep at hO
  rw [mbind_getS] at hO
  have hOpost : sO.closed = false ∧ tO = (if s.closed then [.openCall false] else []) ∧
      sO.lazy = s.lazy ∧ sO.executingDeferred = s.executingDeferred ∧
      sO.strategyType = s.strategyType ∧ sO.deferredBind = false := by
    cases hcl : s.closed with
    | false =>
      rw [if_neg (by simp [eClosed, hcl])] at hO
      rw [mret_run] at hO
      have hsO := triple_eq_fst hO
      have htO := triple_eq_snd hO
      rw [← hsO, ← htO]
      refine ⟨by rw [eClosed, hcl], by simp [hcl], eLazy, eExec, eStrat, ?_⟩
      rw [← hsM]
    | true =>
      rw [if_pos (by rw [eClosed, hcl])] at hO
      rw [openOp_false_run] at hO
      rw [eG] at hO
      rw [if_neg (by simp)] at hO
      rw [if_neg (by simp [eClosed, hcl])] at hO
      cases hok : env.openOk with
      | true =>
        rw [if_pos (by rw [hok])] at hO
        have hsO := triple_eq_fst hO
        have htO := triple_eq_snd hO
        rw [← hsO, ← htO]
        refine ⟨rfl, by simp [hcl], eLazy, eExec, eStrat, ?_⟩
        rw [← hsM]
      | false =>
        rw [if_neg (by simp [hok])] at hO
        exact absurd (triple_eq_thd hO) (by simp)
  obtain ⟨p1, p2, p3, p4, p5, p6⟩ := hOpost
  -- the authentication/resolution tail
  obtain ⟨r₀, tA, tPost, htail, cTA, rTA, rTP, cTPor, cTP, hBound, hb, hcl', hlz,
    hex, hst, hdb⟩ := bindTail_ok h₄
  refine ⟨r₀, tO ++ tA, tPost, ?_, ?_, ?_, rTP, cTPor, cTP, ?_, hb, ?_, ?_, ?_, ?_, ?_⟩
  · rw [ht, ← ht₁, ht₂, ← htM, ht₃, htail]
    simp
  · rw [callFilter_append, cTA, p2]
    cases hclx : s.closed <;> simp [callFilter, isLifecycleCall]
  · rw [resolvedEvents_append, rTA]
    have : resolvedEvents tO = [] := by
      rw [p2]
      cases s.closed <;> simp [resolvedEvents]
    rw [this]
    rfl
  · rw [hBound, p5]
  · rw [hcl', p1]
  · rw [hlz, p3]
  · rw [hex, p4]
  · rw [hst, p5]
  · rw [hdb, p6]


theorem unbind_run (env : Env) (c : Option (List String)) (s : ConnState) :
    unbind env c s =
      if s.lazy && !s.executingDeferred && (s.deferredBind || s.deferredOpen) then
        ({s with closed := true, bound := false, deferredOpen := false, deferredBind := false, deferredStartTls := false}, [.strategyClose], .ok true)
      else if !s.closed then
        (if env.sendOk then
          ({s with closed := true, bound := false},
            [.sendMsg "unbindRequest", .strategyClose], .ok true)
         else ({s with lastError := some "socket sending error"},
            [.sendMsg "unbindRequest"],
            .error ⟨.transportFailure, "socket sending error"⟩))
      else (s, [], .ok true) := by
  cases h1 : s.lazy && !s.executingDeferred && (s.deferredBind || s.deferredOpen) with
  | true => simp [unbind, mseq, mbind, closeOp, emit, modifyS, mret, h1]
  | false =>
    cases hc : s.closed with
    | true => simp [unbind, h1, hc]
    | false =>
      cases hs : env.sendOk with
      | true =>
        simp [unbind, mseq, mbind, closeOp, emit, modifyS, mret, sendRaw, h1, hc, hs]
      | false =>
        simp [unbind, mseq, mbind, closeOp, emit, modifyS, mret, sendRaw, h1, hc, hs]

/-! ## Concrete sessions and environments used as test inputs -/

/-- A freshly constructed synchronous anonymous session (the `__init__`
defaults: closed, unbound, no deferred state). -/
def initState : ConnState where
  strategyType := .sync
  authentication := .anonymous
  user := none
  password := none
  saslMechanism := none
  saslInProgress := false
  lazy := false
  readOnly := false
  closed := true
  bound := false
  tlsStarted := false
  deferredOpen := false
  deferredBind := false
  deferredStartTls := false
  bindControls := none
  executingDeferred := false
  lastError := none
  response := none
  result := none
  entries := none
  outstanding := []

/-- A well-behaved environment: transport and TLS succeed, the server
answers every exchange with a successful bind response. -/
def envOk : Env where
  openOk := true
  sendOk := true
  tlsResult := true
  ntlmSupport := true
  msgId := 1
  ldifOut := ""
  exchange := fun _ => ⟨"bindResponse", 0, ""⟩
  responses := fun _ => []
  asyncResult := none
  saslResult := none
  sicily := fun _ => ⟨0, []⟩
  getInfo := fun r q e => (r, q, e)

/-- An open read-only session. -/
def sReadOnly : ConnState := {initState with readOnly := true, closed := false}

/-- An environment whose exchanges answer with successful add responses. -/
def envAdd : Env := {envOk with exchange := fun _ => ⟨"addResponse", 0, ""⟩}

/-- An open NTLM session with domain-qualified credentials. -/
def sNtlm : ConnState :=
  {initState with authentication := .ntlm, user := some "DOM\\usr", password := some "pw", closed := false}

/-- An environment in which the optional ntlm package is absent. -/
def envNoNtlm : Env := {envOk with ntlmSupport := false}

/-- An open session. -/
def sOpen : ConnState := {initState with closed := false}

/-- An environment whose transport fails on send. -/
def envSendFail : Env := {envOk with sendOk := false}

/-- A lazy session with all three deferred intents pending and stashed bind
controls. -/
def sLazy : ConnState :=
  {initState with lazy := true, deferredOpen := true, deferredBind := true, deferredStartTls := true, closed := true, bindControls := some ["ctl"]}

/-- An open session with two outstanding requests: a search and a bind. -/
def sOut : ConnState :=
  {initState with closed := false, outstanding := [(5, "searchRequest"), (6, "bindRequest")], result := some ⟨"searchResDone", 0, ""⟩, response := some []}


theorem mseq_skip {α β : Type} {x : M α} {y : M β} {s : ConnState} {a : α}
    (hx : x s = (s, [], .ok a)) : mseq x y s = y s := by
  unfold mseq mbind
  rw [hx]
  dsimp only
  rcases hy : y s with ⟨s₂, t₂, r⟩
  simp

/-! ## Claim theorems -/

/-- C10: for a non-pooled open session, `refresh_server_info` saves the
session's `response`, `result` and materialized entries around the metadata
read and restores them, leaving the whole session state exactly as it was
(the trace records the refresh call and one metadata read). -/
theorem refresh_server_info_preserves_results (env : Env) (s : ConnState)
    (hp : s.strategyType.pooled = false) (hc : s.closed = false) :
    refresh_server_info env s = (s, [.refreshCall, .getInfo], .ok ()) := by
  rw [refresh_server_info_run]
  simp [hp, hc]

theorem refresh_server_info_preserves_results_witness :
    refresh_server_info envOk sOpen = (sOpen, [.refreshCall, .getInfo], .ok ()) :=
  refresh_server_info_preserves_results envOk sOpen (by decide) (by decide)

/-- C9: on a non-lazy session, `abandon(id)` sends the abandon request,
clears `result`, `response` and the entries and returns true exactly when the
outstanding table holds `id` with a type other than abandon/bind/unbind;
when `id` is unknown (in particular when the table is empty) or refers to an
abandon, bind, or unbind request, it returns false without sending anything
or touching the state. -/
theorem abandon_outstanding_behaviour (env : Env) (mid : Nat)
    (c : Option (List String)) (s : ConnState) (hlazy : s.lazy = false) :
    (∀ ty, s.outstanding.lookup mid = some ty →
      ["abandonRequest", "bindRequest", "unbindRequest"].contains ty = false →
      env.sendOk = true →
      abandon env mid c s =
        ({s with result := none, response := none, entries := none},
          [.sendMsg "abandonRequest"], .ok true)) ∧
    (s.outstanding.lookup mid = none → abandon env mid c s = (s, [], .ok false)) ∧
    (∀ ty, s.outstanding.lookup mid = some ty →
      ["abandonRequest", "bindRequest", "unbindRequest"].contains ty = true →
      abandon env mid c s = (s, [], .ok false)) := by
  have hfd : fire_deferred env s = (s, [], .ok ()) := fire_deferred_not_lazy hlazy
  refine ⟨?_, ?_, ?_⟩
  · intro ty hty hcont hsend
    have hne : s.outstanding.isEmpty = false := by
      cases ho : s.outstanding with
      | nil => rw [ho] at hty; simp [List.lookup] at hty
      | cons p l => simp [List.isEmpty]
    unfold abandon
    rw [mseq_skip hfd]
    rw [hne]
    simp only [Bool.not_false, if_true]
    rw [hty]
    dsimp only
    rw [hcont]
    simp only [Bool.false_eq_true, if_false]
    simp [mseq, mbind, sendRaw, emit, modifyS, mret, hsend]
  · intro hty
    unfold abandon
    rw [mseq_skip hfd]
    cases hne : s.outstanding.isEmpty with
    | true => simp [hne]
    | false =>
      simp only [Bool.not_false, if_true]
      rw [hty]
  · intro ty hty hcont
    have hne : s.outstanding.isEmpty = false := by
      cases ho : s.outstanding with
      | nil => rw [ho] at hty; simp [List.lookup] at hty
      | cons p l => simp [List.isEmpty]
    unfold abandon
    rw [mseq_skip hfd]
    rw [hne]
    simp only [Bool.not_false, if_true]
    rw [hty]
    dsimp only
    rw [hcont]
    simp

theorem abandon_outstanding_behaviour_witness :
    (abandon envOk 5 none sOut =
      ({sOut with result := none, response := none, entries := none},
        [.sendMsg "abandonRequest"], .ok true)) ∧
    (abandon envOk 6 none sOut = (sOut, [], .ok false)) ∧
    (abandon envOk 7 none sOut = (sOut, [], .ok false)) := by
  refine ⟨?_, ?_, ?_⟩
  · exact (abandon_outstanding_behaviour envOk 5 none sOut rfl).1 "searchRequest"
      (by decide) (by decide) rfl
  · exact (abandon_outstanding_behaviour envOk 6 none sOut rfl).2.2 "bindRequest"
      (by decide) (by decide)
  · exact (abandon_outstanding_behaviour envOk 7 none sOut rfl).2.1 (by decide)


theorem validateChanges_some_kind :
    ∀ (l : List (String × List ChangeElem)) (e : LDAPError),
      validateChanges l = some e → e.kind = .changesError := by
  intro l
  induction l with
  | nil => intro e h; simp [validateChanges] at h
  | cons p rest ih =>
    intro e h
    obtain ⟨a, tup⟩ := p
    unfold validateChanges at h
    split at h
    · cases h; rfl
    · split at h
      · cases h; rfl
      · exact ih e h

theorem validateChanges_isSome :
    ∀ (l : List (String × List ChangeElem)) (a : String) (tup : List ChangeElem),
      (a, tup) ∈ l →
      (tup.length ≠ 2 ∨ allowedChangeOp (tup.headD (.strv "")) = false) →
      (validateChanges l).isSome = true := by
  intro l
  induction l with
  | nil => intro a tup hmem hbad; simp at hmem
  | cons p rest ih =>
    intro a tup hmem hbad
    obtain ⟨b, tupb⟩ := p
    unfold validateChanges
    split
    next hcond1 => rfl
    next hcond1 =>
      split
      next hcond2 => rfl
      next hcond2 =>
        rcases List.mem_cons.mp hmem with heq | hmem2
        · obtain ⟨h3, h4⟩ : a = b ∧ tup = tupb := by simpa using heq
          subst h4
          rcases hbad with hlen | hop
          · exact absurd (by simpa using hcond1) hlen
          · rw [hop] at hcond2
            simp at hcond2
        · exact ih a tup hmem2 hbad

/-- C8: on a non-lazy, non-read-only session, `modify` rejects a change set
that is not a mapping, is empty, has a tuple of length ≠ 2 for some
attribute, or uses a change-type code outside
{MODIFY_ADD, MODIFY_DELETE, MODIFY_REPLACE, MODIFY_INCREMENT, 0, 1, 2, 3}:
it raises a MalformedChangeSet/UnknownChangeType-kind (`LDAPChangesError`)
error, sets `lastError` to its message, and sends or builds no message at all
(the trace is empty and only `lastError` changes). -/
theorem modify_rejects_invalid_changes (env : Env) (dn : String)
    (c : Option (List String)) (s : ConnState) (changes : ChangesInput)
    (hlazy : s.lazy = false) (hro : s.readOnly = false)
    (hbad : changes = .notMapping ∨ changes = .mapping [] ∨
      (∃ l a tup, changes = .mapping l ∧ (a, tup) ∈ l ∧
        (tup.length ≠ 2 ∨ allowedChangeOp (tup.headD (.strv "")) = false))) :
    ∃ e, modify env dn changes c s = ({s with lastError := some e.msg}, [], .error e) ∧
      e.kind = .changesError := by
  have hfd : fire_deferred env s = (s, [], .ok ()) := fire_deferred_not_lazy hlazy
  unfold modify
  rw [mseq_skip hfd]
  rw [hro]
  simp only [Bool.false_eq_true, if_false]
  rcases hbad with rfl | rfl | ⟨l, a, tup, rfl, hmem, hbadt⟩
  · exact ⟨⟨.changesError, "changes must be a dictionary"⟩, rfl, rfl⟩
  · exact ⟨⟨.changesError, "no changes in modify request"⟩, rfl, rfl⟩
  · have hne : l.isEmpty = false := by
      cases l with
      | nil => simp at hmem
      | cons q r => simp [List.isEmpty]
    have hsome := validateChanges_isSome l a tup hmem hbadt
    obtain ⟨e, he⟩ := Option.isSome_iff_exists.mp hsome
    refine ⟨e, ?_, validateChanges_some_kind l e he⟩
    dsimp only
    rw [hne]
    simp only [Bool.false_eq_true, if_false]
    rw [he]

theorem modify_rejects_invalid_changes_witness :
    ∃ e, modify envOk "cn=x,o=test" (.mapping [("cn", [.mADD])]) none initState =
      (({initState with lastError := some e.msg} : ConnState), [], .error e) ∧
      e.kind = .changesError := by
  refine modify_rejects_invalid_changes envOk "cn=x,o=test" none initState
    (.mapping [("cn", [.mADD])]) rfl rfl ?_
  refine .inr (.inr ⟨[("cn", [.mADD])], "cn", [.mADD], rfl, ?_, .inl (by decide)⟩)
  exact List.mem_singleton.mpr rfl

/-- C7 counterexample: on an open non-lazy session whose transport fails on
the send step, `unbind` raises a TransportFailure-kind error to the caller
instead of swallowing it — there is no error handling around the send inside
`unbind`. -/
theorem unbind_send_error_propagates :
    unbind envSendFail none sOpen =
      ({sOpen with lastError := some "socket sending error"},
        [.sendMsg "unbindRequest"],
        .error ⟨.transportFailure, "socket sending error"⟩) := rfl

/-- C7 amended: `unbind` returns true on every path on which it completes
(deferred-clearing, open-session, and already-closed paths); an error raised
by the send step, however, propagates. -/
theorem unbind_completion_returns_true (env : Env) (c : Option (List String))
    (s s' : ConnState) (tr : List Action) (b : Bool)
    (h : unbind env c s = (s', tr, .ok b)) : b = true := by
  rw [unbind_run] at h
  split at h
  · exact (Except.ok.inj (triple_eq_thd h)).symm
  · split at h
    · split at h
      · exact (Except.ok.inj (triple_eq_thd h)).symm
      · exact absurd (triple_eq_thd h) (by simp)
    · exact (Except.ok.inj (triple_eq_thd h)).symm

theorem unbind_completion_returns_true_witness :
    ∃ s' tr b, unbind envOk none sOpen = (s', tr, .ok b) ∧ b = true := by
  refine ⟨_, _, true, rfl, ?_⟩
  exact unbind_completion_returns_true envOk none sOpen _ _ true rfl

/-- C1: on an open read-only synchronous session, `delete`, `modify` and
`modify_dn` each raise a ReadOnlyViolation-kind error with `lastError` set
and an empty trace (no message built or sent), while `add` builds and sends
its addRequest and completes normally — the read-only check is missing from
`add`, contradicting the documented meaning of `read_only`. -/
theorem read_only_add_sends_while_others_raise :
    (delete envAdd "cn=x,o=test" none sReadOnly =
      ({sReadOnly with lastError := some "connection is read-only"}, [],
        .error ⟨.readOnlyViolation, "connection is read-only"⟩)) ∧
    (modify envAdd "cn=x,o=test" (.mapping [("cn", [.mADD, .vals ["v"]])]) none sReadOnly =
      ({sReadOnly with lastError := some "connection is read-only"}, [],
        .error ⟨.readOnlyViolation, "connection is read-only"⟩)) ∧
    (modify_dn envAdd "cn=x,o=test" "cn=x" true (some "o=new") none sReadOnly =
      ({sReadOnly with lastError := some "connection is read-only"}, [],
        .error ⟨.readOnlyViolation, "connection is read-only"⟩)) ∧
    (add envAdd "cn=x,o=test" (some ["person"]) [] none sReadOnly =
      ({sReadOnly with result := some ⟨"addResponse", 0, ""⟩, response := some [], entries := none},
        [.sendMsg "addRequest"], .ok (.done true))) :=
  ⟨rfl, rfl, rfl, rfl⟩


/-! ## Entries materialization facts -/

theorem foldl_collect_mono :
    ∀ (rs : List SearchEntry) (acc : List (Finset String)) (x : Finset String),
      x ∈ acc →
      x ∈ rs.foldl (fun acc r => if attrSet r ∈ acc then acc else acc ++ [attrSet r]) acc := by
  intro rs
  induction rs with
  | nil => intro acc x hx; simpa using hx
  | cons r rest ih =>
    intro acc x hx
    simp only [List.foldl_cons]
    apply ih
    split
    · exact hx
    · exact List.mem_append_left _ hx

theorem foldl_collect_mem :
    ∀ (rs : List SearchEntry) (acc : List (Finset String)) (r : SearchEntry),
      r ∈ rs →
      attrSet r ∈ rs.foldl (fun acc r => if attrSet r ∈ acc then acc else acc ++ [attrSet r]) acc := by
  intro rs
  induction rs with
  | nil => intro acc r hr; simp at hr
  | cons r0 rest ih =>
    intro acc r hr
    simp only [List.foldl_cons]
    rcases List.mem_cons.mp hr with rfl | hr2
    · apply foldl_collect_mono
      split
      next hin => exact hin
      next hin => exact List.mem_append_right _ (List.mem_singleton.mpr rfl)
    · exact ih _ r hr2

theorem mem_collectAttrSets {rs : List SearchEntry} {r : SearchEntry} (h : r ∈ rs) :
    attrSet r ∈ collectAttrSets rs :=
  foldl_collect_mem rs [] r h

theorem mem_insertDescLen_self :
    ∀ (l : List (Finset String)) (x : Finset String), x ∈ insertDescLen x l := by
  intro l x
  induction l with
  | nil => simp [insertDescLen]
  | cons y ys ih =>
    unfold insertDescLen
    split
    · exact List.mem_cons_self _ _
    · exact List.mem_cons_of_mem _ ih

theorem mem_insertDescLen_of_mem :
    ∀ (l : List (Finset String)) (x y : Finset String), y ∈ l → y ∈ insertDescLen x l := by
  intro l
  induction l with
  | nil => intro x y hy; simp at hy
  | cons z zs ih =>
    intro x y hy
    unfold insertDescLen
    rcases List.mem_cons.mp hy with rfl | hy2
    · split
      · exact List.mem_cons_of_mem _ (List.mem_cons_self _ _)
      · exact List.mem_cons_self _ _
    · split
      · exact List.mem_cons_of_mem _ (List.mem_cons_of_mem _ hy2)
      · exact List.mem_cons_of_mem _ (ih x y hy2)

theorem mem_sortDescLen :
    ∀ (l : List (Finset String)) (x : Finset String), x ∈ l → x ∈ sortDescLen l := by
  intro l
  induction l with
  | nil => intro x hx; simp at hx
  | cons y ys ih =>
    intro x hx
    unfold sortDescLen
    simp only [List.foldr_cons]
    rcases List.mem_cons.mp hx with rfl | hx2
    · exact mem_insertDescLen_self _ _
    · exact mem_insertDescLen_of_mem _ _ _ (ih x hx2)

theorem ucover_mono :
    ∀ (l acc : List (Finset String)) (u : Finset String),
      u ∈ acc →
      u ∈ l.foldl (fun acc x => if acc.any (fun v => decide (x ⊆ v)) then acc else acc ++ [x]) acc := by
  intro l
  induction l with
  | nil => intro acc u hu; simpa using hu
  | cons y ys ih =>
    intro acc u hu
    simp only [List.foldl_cons]
    apply ih
    split
    · exact hu
    · exact List.mem_append_left _ hu

theorem ucover_mem :
    ∀ (l acc : List (Finset String)) (x : Finset String),
      x ∈ l →
      ∃ u, u ∈ l.foldl (fun acc x => if acc.any (fun v => decide (x ⊆ v)) then acc else acc ++ [x]) acc ∧
        x ⊆ u := by
  intro l
  induction l with
  | nil => intro acc x hx; simp at hx
  | cons y ys ih =>
    intro acc x hx
    simp only [List.foldl_cons]
    rcases List.mem_cons.mp hx with rfl | hx2
    · split
      next hany =>
        obtain ⟨u, hu, hsub⟩ := List.any_eq_true.mp hany
        exact ⟨u, ucover_mono ys acc u hu, of_decide_eq_true hsub⟩
      next hany =>
        exact ⟨x, ucover_mono ys _ x (List.mem_append_right _ (List.mem_singleton.mpr rfl)),
          Finset.Subset.refl x⟩
    · exact ih _ x hx2

theorem uniqueAttrSets_cover {l : List (Finset String)} {x : Finset String}
    (h : x ∈ l) : ∃ u, u ∈ uniqueAttrSets l ∧ x ⊆ u :=
  ucover_mem l [] x h

theorem entrySignatures_cover (rs : List SearchEntry) (r : SearchEntry)
    (h : r ∈ rs) : ∃ u, u ∈ entrySignatures rs ∧ attrSet r ⊆ u :=
  uniqueAttrSets_cover (mem_sortDescLen _ _ (mem_collectAttrSets h))

theorem matchEntries_ok :
    ∀ (sigs : List (Finset String)) (rs : List SearchEntry),
      (∀ r, r ∈ rs → ∃ u, u ∈ sigs ∧ attrSet r ⊆ u) →
      ∃ out, matchEntries sigs rs = .ok out := by
  intro sigs rs
  induction rs with
  | nil => intro hcov; exact ⟨[], rfl⟩
  | cons r rest ih =>
    intro hcov
    obtain ⟨u, hu, hsub⟩ := hcov r (List.mem_cons_self _ _)
    have hfind : (sigs.find? (fun v => decide (attrSet r ⊆ v))).isSome = true := by
      rw [List.find?_isSome]
      exact ⟨u, hu, decide_eq_true hsub⟩
    obtain ⟨v, hv⟩ := Option.isSome_iff_exists.mp hfind
    obtain ⟨tail, htail⟩ := ih (fun q hq => hcov q (List.mem_cons_of_mem _ hq))
    refine ⟨(if r.type == "searchResEntry" then [(r, v)] else []) ++ tail, ?_⟩
    unfold matchEntries
    rw [hv, htail]


/-- Search-result entries used as concrete grouping inputs. -/
def entAB : SearchEntry := ⟨"searchResEntry", "dn1", ["a", "b"]⟩

/-- A result whose attribute set is a subset of `entAB`'s. -/
def entA : SearchEntry := ⟨"searchResEntry", "dn2", ["a"]⟩

/-- A result with attribute set `{b, c}`. -/
def entBC : SearchEntry := ⟨"searchResEntry", "dn3", ["b", "c"]⟩

/-- A result with attribute set `{b}`, a subset of both `{a,b}` and `{b,c}`. -/
def entB : SearchEntry := ⟨"searchResEntry", "dn4", ["b"]⟩

/-- C5 counterexample: with results whose attribute sets are `{a,b}`, `{b,c}`
and `{b}`, the chosen grouping signatures are `{a,b}` and `{b,c}`, and the
`{b}` result's attribute set is a subset of two distinct chosen signatures
(`countP` is 2), so a result's attribute set need not be a subset of exactly
one chosen grouping signature. -/
theorem entries_signature_not_unique :
    entrySignatures [entAB, entBC, entB] = [attrSet entAB, attrSet entBC] ∧
    attrSet entB ⊆ attrSet entAB ∧ attrSet entB ⊆ attrSet entBC ∧
    attrSet entAB ≠ attrSet entBC ∧
    (entrySignatures [entAB, entBC, entB]).countP
      (fun u => decide (attrSet entB ⊆ u)) = 2 ∧
    get_entries [entAB, entBC, entB] =
      .ok [(entAB, attrSet entAB), (entBC, attrSet entBC), (entB, attrSet entAB)] := by
  refine ⟨by decide, by decide, by decide, by decide, by decide, rfl⟩

/-- C5 amended: entries materialization groups results by attribute-set
signature with signatures ordered by descending size; given results with
attribute sets `{a,b}` and `{a}`, both map to the `{a,b}` signature (the
largest superset wins), and every result's attribute set is a subset of at
least one chosen signature — the first containing signature in the
descending-size order is chosen — so materialization always succeeds and the
AttributeSetUnmatched raise never fires when the signatures are computed from
the same results. -/
theorem entries_grouping_superset_first_match :
    (get_entries [entAB, entA] = .ok [(entAB, attrSet entAB), (entA, attrSet entAB)]) ∧
    (∀ rs : List SearchEntry, ∃ out, get_entries rs = .ok out) := by
  constructor
  · rfl
  · intro rs
    exact matchEntries_ok (entrySignatures rs) rs (fun r hr => entrySignatures_cover rs r hr)


theorem resolved_mem {tr : List Action} {r : Option ResultRec}
    (h : Action.resolvedResult r ∈ tr) : r ∈ resolvedEvents tr := by
  unfold resolvedEvents
  rw [List.mem_filterMap]
  exact ⟨Action.resolvedResult r, h, rfl⟩

/-- C3: whenever a `bind` call completes and resolves an outcome `r` (the
resolution event appears in its trace — the lazy deferred branch never
resolves one), the session's `bound` flag is set to true exactly when `r`'s
numeric code equals RESULT_SUCCESS, and when no immediate result is available
(`r = none`) exactly when the strategy kind is the reusable (pooled) one; the
call returns that flag. -/
theorem bind_bound_iff_resolved_success (env : Env) (rsi : Bool)
    (c : Option (List String)) (s s' : ConnState) (tr : List Action) (b : Bool)
    (r : Option ResultRec)
    (hok : bind env rsi c s = (s', tr, .ok b))
    (hres : Action.resolvedResult r ∈ tr) :
    (r = none → s'.bound = (s.strategyType == StrategyKind.reusable)) ∧
    (∀ x, r = some x → s'.bound = (x.result == RESULT_SUCCESS)) ∧
    b = s'.bound := by
  cases hg : s.lazy && !s.executingDeferred with
  | true =>
    rw [bind_deferred_run hg] at hok
    have htr := triple_eq_snd hok
    rw [← htr] at hres
    simp at hres
  | false =>
    obtain ⟨r₀, tA, tPost, htr, cTA, rTA, rTP, -, -, hBound, hb, -, -, -, -, -⟩ :=
      bind_real_ok hg hok
    have hrr : r = r₀ := by
      rw [htr] at hres
      rcases List.mem_cons.mp hres with heq | hmem
      · exact absurd heq (by simp)
      · rcases List.mem_append.mp hmem with hA | hP
        · have := resolved_mem hA
          rw [rTA] at this
          simp at this
        · rcases List.mem_cons.mp hP with heq2 | hP2
          · simpa using heq2
          · have := resolved_mem hP2
            rw [rTP] at this
            simp at this
    refine ⟨?_, ?_, hb⟩
    · intro hre
      rw [hre] at hrr
      rw [hBound, ← hrr]
      rfl
    · intro x hre
      rw [hre] at hrr
      rw [hBound, ← hrr]
      rfl

theorem bind_bound_iff_resolved_success_witness :
    ∃ s' tr b, bind envOk true none initState = (s', tr, .ok b) ∧
      Action.resolvedResult (some ⟨"bindResponse", 0, ""⟩) ∈ tr ∧
      s'.bound = ((⟨"bindResponse", 0, ""⟩ : ResultRec).result == RESULT_SUCCESS) ∧
      b = s'.bound := by
  refine ⟨_, _, _, rfl, by decide, ?_, ?_⟩
  · exact (bind_bound_iff_resolved_success envOk true none initState _ _ _
      (some ⟨"bindResponse", 0, ""⟩) rfl (by decide)).2.1 _ rfl
  · exact (bind_bound_iff_resolved_success envOk true none initState _ _ _
      (some ⟨"bindResponse", 0, ""⟩) rfl (by decide)).2.2

/-- C4: for every strategy kind and configuration, a completed `bind` call
followed immediately by a completed `unbind` call leaves the session with
`closed = true` and `bound = false`, and the unbind reports success. -/
theorem bind_unbind_closed_not_bound (env env₂ : Env) (rsi : Bool)
    (c c₂ : Option (List String)) (s s₁ s₂ : ConnState)
    (t₁ t₂ : List Action) (b₁ b₂ : Bool)
    (hbind : bind env rsi c s = (s₁, t₁, .ok b₁))
    (hunbind : unbind env₂ c₂ s₁ = (s₂, t₂, .ok b₂)) :
    s₂.closed = true ∧ s₂.bound = false ∧ b₂ = true := by
  have hpost : (s₁.lazy && !s₁.executingDeferred && (s₁.deferredBind || s₁.deferredOpen)) = true ∨
      s₁.closed = false := by
    cases hg : s.lazy && !s.executingDeferred with
    | true =>
      left
      rw [bind_deferred_run hg] at hbind
      have hs₁ := triple_eq_fst hbind
      rw [← hs₁]
      simp [hg]
    | false =>
      obtain ⟨-, -, -, -, -, -, -, -, -, -, -, hcl, -, -, -, -⟩ := bind_real_ok hg hbind
      right
      exact hcl
  rw [unbind_run] at hunbind
  by_cases hdef : (s₁.lazy && !s₁.executingDeferred && (s₁.deferredBind || s₁.deferredOpen)) = true
  · rw [if_pos hdef] at hunbind
    have hs₂ := triple_eq_fst hunbind
    have hb₂ := Except.ok.inj (triple_eq_thd hunbind)
    refine ⟨?_, ?_, hb₂.symm⟩ <;> rw [← hs₂]
  · rw [if_neg hdef] at hunbind
    rcases hpost with hd | hcl
    · exact absurd hd hdef
    · rw [if_pos (by simp [hcl])] at hunbind
      cases hsend : env₂.sendOk with
      | true =>
        rw [if_pos (by rw [hsend])] at hunbind
        have hs₂ := triple_eq_fst hunbind
        have hb₂ := Except.ok.inj (triple_eq_thd hunbind)
        refine ⟨?_, ?_, hb₂.symm⟩ <;> rw [← hs₂]
      | false =>
        rw [if_neg (by simp [hsend])] at hunbind
        exact absurd (triple_eq_thd hunbind) (by simp)

theorem bind_unbind_closed_not_bound_witness :
    ∃ s₁ t₁ b₁ s₂ t₂ b₂, bind envOk true none initState = (s₁, t₁, .ok b₁) ∧
      unbind envOk none s₁ = (s₂, t₂, .ok b₂) ∧
      (s₂.closed = true ∧ s₂.bound = false ∧ b₂ = true) := by
  refine ⟨_, _, _, _, _, _, rfl, rfl, ?_⟩
  exact bind_unbind_closed_not_bound envOk envOk true none none initState _ _ _ _ _ _ rfl rfl


theorem callFilter_cons_call {a : Action} (h : isLifecycleCall a = true)
    (l : List Action) : callFilter (a :: l) = a :: callFilter l := by
  simp [callFilter, List.filter_cons, h]

theorem callFilter_cons_skip {a : Action} (h : isLifecycleCall a = false)
    (l : List Action) : callFilter (a :: l) = callFilter l := by
  simp [callFilter, List.filter_cons, h]

theorem fire_deferred_pending_trace {env : Env} {s s' : ConnState}
    {tr : List Action} {u : Unit}
    (hlazy : s.lazy = true) (hexec : s.executingDeferred = false)
    (hdo : s.deferredOpen = true) (hdt : s.deferredStartTls = true)
    (hdb : s.deferredBind = true) (hcl : s.closed = true)
    (h : fire_deferred env s = (s', tr, .ok u)) :
    callFilter tr = [.openCall false, .startTlsCall false,
      .bindCall false s.bindControls, .refreshCall] := by
  unfold fire_deferred at h
  rw [if_pos (by simp [hlazy, hexec])] at h
  dsimp only at h
  rcases hbody : (mseq (mbind getS (fun st =>
      if st.deferredOpen then openOp env false else mret ()))
    (mseq (mbind getS (fun st =>
        if st.deferredStartTls then mseq (start_tls env false) (mret ())
        else mret ()))
      (mseq (mbind getS (fun st =>
          if st.deferredBind then mseq (bind env false st.bindControls) (mret ())
          else mret ()))
        (refresh_server_info env)))) {s with executingDeferred := true} with
    ⟨sb, tb, rb⟩
  rw [hbody] at h
  cases rb with
  | error e => exact absurd (triple_eq_thd h) (by simp)
  | ok ub =>
    have htr : tr = tb := (triple_eq_snd h).symm
    -- step 1: the pending open
    rcases mbind_run hbody with ⟨e, -, hre⟩ | ⟨sA, t1, a1, t₂, h1, h2, hteq⟩
    · cases hre
    rw [mbind_getS] at h1
    rw [if_pos (show ({s with executingDeferred := true} : ConnState).deferredOpen = true from hdo)] at h1
    rw [openOp_false_run] at h1
    rw [if_neg (by simp)] at h1
    rw [if_neg (by simp [hcl])] at h1
    cases hok : env.openOk with
    | false =>
      rw [if_neg (by simp [hok])] at h1
      exact absurd (triple_eq_thd h1) (by simp)
    | true =>
      rw [if_pos (by rw [hok])] at h1
      have hsA := triple_eq_fst h1
      have ht1 := triple_eq_snd h1
      -- step 2: the pending TLS upgrade
      rcases mbind_run h2 with ⟨e, -, hre⟩ | ⟨sB, t2, a2, t₃, h2a, h3, hteq2⟩
      · cases hre
      rw [mbind_getS] at h2a
      rw [if_pos (show sA.deferredStartTls = true by rw [← hsA]; exact hdt)] at h2a
      have hgA : ¬((sA.lazy && !sA.executingDeferred) = true) := by
        rw [← hsA]
        simp
      have htls : start_tls env false sA =
          ({sA with deferredStartTls := false}, [.startTlsCall false, .tlsHandshake],
            .ok (env.tlsResult || !sA.strategyType.syncCap)) := by
        rw [start_tls_false_run]
        rw [if_neg hgA]
      rw [mseq_ok_intro htls (mret_run () _)] at h2a
      have hsB := triple_eq_fst h2a
      have ht2 := triple_eq_snd h2a
      -- step 3: the pending bind with the stashed controls
      rcases mbind_run h3 with ⟨e, -, hre⟩ | ⟨sC, t3, a3, t₄, h3a, h4, hteq3⟩
      · cases hre
      rw [mbind_getS] at h3a
      rw [if_pos (show sB.deferredBind = true by rw [← hsB, ← hsA]; exact hdb)] at h3a
      rcases mbind_run h3a with ⟨e, -, hre⟩ | ⟨sC0, t3b, bv, t3c, hbind3, hmret3, hteq3b⟩
      · cases hre
      have hgB : (sB.lazy && !sB.executingDeferred) = false := by
        rw [← hsB, ← hsA]
        simp
      obtain ⟨r₀, tA, tPost, htr3, cTA, -, -, -, cTP, -, -, hclC, -, -, -, -⟩ :=
        bind_real_ok hgB hbind3
      rw [mret_run] at hmret3
      have hsC := triple_eq_fst hmret3
      have ht3c := triple_eq_snd hmret3
      have hcb : sB.bindControls = s.bindControls := by rw [← hsB, ← hsA]
      have hclB : sB.closed = false := by rw [← hsB, ← hsA]
      have hcall3 : callFilter t3b = [.bindCall false s.bindControls] := by
        rw [htr3, hcb]
        rw [callFilter_cons_call (by rfl)]
        rw [callFilter_append, cTA]
        rw [hclB]
        simp only [Bool.false_eq_true, if_false]
        rw [callFilter_cons_skip (by rfl)]
        rw [cTP rfl]
        rfl
      -- step 4: the single metadata refresh
      rw [refresh_server_info_run] at h4
      have ht4 := triple_eq_snd h4
      have hcall4 : callFilter t₄ = [.refreshCall] := by
        rw [← ht4]
        split
        · rfl
        · rfl
      -- assemble
      rw [htr, hteq, hteq2, hteq3, hteq3b]
      rw [callFilter_append, callFilter_append, callFilter_append, callFilter_append]
      rw [← ht1, ← ht2, hcall3, ← ht3c, hcall4]
      rfl

theorem postSendSearch_trace {env : Env} {k : Nat} {n : String} {s sP : ConnState}
    {tP : List Action} {r : Except LDAPError PSRet}
    (h : postSendSearch env k n s = (sP, tP, r)) : tP = [.sendMsg n] := by
  rw [postSendSearch_run] at h
  by_cases hs : env.sendOk
  · rw [if_pos hs] at h
    by_cases hl : s.strategyType = .ldif
    · rw [if_pos hl] at h
      exact (triple_eq_snd h).symm
    · rw [if_neg hl] at h
      cases hsy : s.strategyType.syncCap with
      | true =>
        rw [hsy] at h
        rw [if_pos rfl] at h
        exact (triple_eq_snd h).symm
      | false =>
        rw [hsy] at h
        rw [if_neg (by simp)] at h
        exact (triple_eq_snd h).symm
  · rw [if_neg hs] at h
    exact (triple_eq_snd h).symm

theorem search_lazy_pending_trace {env : Env} {b f : String}
    {c : Option (List String)} {s s' : ConnState} {tr : List Action} {v : OpRet}
    (hlazy : s.lazy = true) (hexec : s.executingDeferred = false)
    (hdo : s.deferredOpen = true) (hdt : s.deferredStartTls = true)
    (hdb : s.deferredBind = true) (hcl : s.closed = true)
    (h : search env b f c s = (s', tr, .ok v)) :
    ∃ t, tr = t ++ [.sendMsg "searchRequest"] ∧
      callFilter t = [.openCall false, .startTlsCall false,
        .bindCall false s.bindControls, .refreshCall] := by
  unfold search at h
  rcases mseq_run h with ⟨e, -, hre⟩ | ⟨s₁, t₁, t₂, ⟨a, hfd⟩, hrest, htr⟩
  · cases hre
  have hcf := fire_deferred_pending_trace hlazy hexec hdo hdt hdb hcl hfd
  rcases mbind_run hrest with ⟨e, -, hre⟩ | ⟨sP, tP, psr, tC, hps, hcont, hteq⟩
  · cases hre
  have htP := postSendSearch_trace hps
  have htC : tC = [] := by
    rcases mseq_run hcont with ⟨e, -, hre⟩ | ⟨sM, tM, tN, ⟨aM, hM⟩, hN, hteqC⟩
    · cases hre
    have htM : tM = [] := (triple_eq_snd hM).symm
    have htN : tN = [] := by
      cases psr with
      | handle n =>
        exact (triple_eq_snd hN).symm
      | resp =>
        dsimp only at hN
        rw [mbind_getS] at hN
        cases hres : sM.result with
        | none =>
          rw [hres] at hN
          cases triple_eq_thd hN
        | some r =>
          rw [hres] at hN
          exact (triple_eq_snd hN).symm
      | strval w =>
        dsimp only at hN
        rw [mbind_getS] at hN
        cases hres : sM.result with
        | none =>
          rw [hres] at hN
          cases triple_eq_thd hN
        | some r =>
          rw [hres] at hN
          exact (triple_eq_snd hN).symm
    rw [hteqC, htM, htN]
    rfl
  refine ⟨t₁, ?_, hcf⟩
  rw [htr, hteq, htP, htC]
  simp

/-- C2: in a lazy session with all deferred intents pending, the first
non-lifecycle operation call (`search` here) runs exactly one
deferred-resolution pass whose lifecycle calls are, strictly in this order:
the pending open (without metadata read), the pending TLS upgrade (without
metadata read), the pending bind with the stashed controls (without metadata
read), then a single metadata refresh — all before the operation's own
message is sent; and while the re-entrancy flag `executingDeferred` is set,
`fire_deferred` is a no-op, so operations issued during the pass never
re-trigger deferred resolution. -/
theorem lazy_deferred_resolution_order :
    (∀ (env : Env) (s : ConnState), s.executingDeferred = true →
      fire_deferred env s = (s, [], .ok ())) ∧
    (∀ (env : Env) (b f : String) (c : Option (List String))
        (s s' : ConnState) (tr : List Action) (v : OpRet),
      s.lazy = true → s.executingDeferred = false →
      s.deferredOpen = true → s.deferredStartTls = true →
      s.deferredBind = true → s.closed = true →
      search env b f c s = (s', tr, .ok v) →
      ∃ t, tr = t ++ [.sendMsg "searchRequest"] ∧
        callFilter t = [.openCall false, .startTlsCall false,
          .bindCall false s.bindControls, .refreshCall]) := by
  constructor
  · intro env s hx
    exact fire_deferred_reentrant hx
  · intro env b f c s s' tr v h1 h2 h3 h4 h5 h6 h7
    exact search_lazy_pending_trace h1 h2 h3 h4 h5 h6 h7

theorem lazy_deferred_resolution_order_witness :
    (∃ sE : ConnState, sE.executingDeferred = true ∧
      fire_deferred envOk sE = (sE, [], .ok ())) ∧
    (∃ s' tr v, search envOk "o=test" "cn" none sLazy = (s', tr, .ok v) ∧
      ∃ t, tr = t ++ [.sendMsg "searchRequest"] ∧
        callFilter t = [.openCall false, .startTlsCall false,
          .bindCall false sLazy.bindControls, .refreshCall]) := by
  constructor
  · exact ⟨{initState with executingDeferred := true}, rfl,
      lazy_deferred_resolution_order.1 envOk _ rfl⟩
  · rcases hres : search envOk "o=test" "cn" none sLazy with ⟨sR, trR, rR⟩
    cases rR with
    | error e => cases (by decide : ¬(search envOk "o=test" "cn" none sLazy).2.2.isOk = false) (by rw [hres]; rfl)
    | ok v =>
      exact ⟨sR, trR, v, rfl,
        lazy_deferred_resolution_order.2 envOk "o=test" "cn" none sLazy sR trR v
          rfl rfl rfl rfl rfl rfl hres⟩


/-! ## Error propagation and `lastError` -/

/-- A component never raising on any run. -/
def NoErr {α : Type} (x : M α) : Prop :=
  ∀ s s' tr e, x s = (s', tr, .error e) → False

/-- A component all of whose raises — other than the two source raise sites
that skip `last_error`: the missing-ntlm-package raise and plain Python
errors (`ValueError`/`TypeError`) — leave `lastError` holding the raised
description. -/
def ErrSetsLastError {α : Type} (x : M α) : Prop :=
  ∀ s s' tr e, x s = (s', tr, .error e) →
    e.kind ≠ .packageUnavailable → e.kind ≠ .pythonError →
    s'.lastError = some e.msg

theorem noErr_errSets {α : Type} {x : M α} (h : NoErr x) : ErrSetsLastError x :=
  fun s s' tr e hx _ _ => (h s s' tr e hx).elim

theorem noErr_mbind {α β : Type} {x : M α} {f : α → M β}
    (hx : NoErr x) (hf : ∀ a, NoErr (f a)) : NoErr (mbind x f) := by
  intro s s' tr e h
  rcases mbind_run h with ⟨e', hr, -⟩ | ⟨s₁, t₁, a, t₂, h₁, h₂, -⟩
  · exact hx _ _ _ _ hr
  · exact hf a _ _ _ _ h₂

theorem noErr_mseq {α β : Type} {x : M α} {y : M β}
    (hx : NoErr x) (hy : NoErr y) : NoErr (mseq x y) :=
  noErr_mbind hx (fun _ => hy)

theorem noErr_mret {α : Type} (a : α) : NoErr (mret a) := by
  intro s s' tr e h
  cases triple_eq_thd h

theorem noErr_getS : NoErr getS := by
  intro s s' tr e h
  cases triple_eq_thd h

theorem noErr_emit (a : Action) : NoErr (emit a) := by
  intro s s' tr e h
  cases triple_eq_thd h

theorem noErr_modifyS (f : ConnState → ConnState) : NoErr (modifyS f) := by
  intro s s' tr e h
  cases triple_eq_thd h

theorem noErr_closeOp : NoErr closeOp := by
  intro s s' tr e h
  rw [closeOp_run] at h
  cases triple_eq_thd h

theorem noErr_refresh (env : Env) : NoErr (refresh_server_info env) := by
  intro s s' tr e h
  rw [refresh_server_info_run] at h
  cases triple_eq_thd h

theorem noErr_do_sasl_bind (env : Env) (c : Option (List String)) :
    NoErr (do_sasl_bind env c) := by
  intro s s' tr e h
  rw [do_sasl_bind_run] at h
  split at h
  · cases triple_eq_thd h
  · cases triple_eq_thd h

theorem noErr_bindFinish : NoErr bindFinish := by
  intro s s' tr e h
  rw [bindFinish_run] at h
  cases triple_eq_thd h

theorem errSets_mbind {α β : Type} {x : M α} {f : α → M β}
    (hx : ErrSetsLastError x) (hf : ∀ a, ErrSetsLastError (f a)) :
    ErrSetsLastError (mbind x f) := by
  intro s s' tr e h hk1 hk2
  rcases mbind_run h with ⟨e', hr, hre⟩ | ⟨s₁, t₁, a, t₂, h₁, h₂, -⟩
  · cases hre
    exact hx _ _ _ _ hr hk1 hk2
  · exact hf a _ _ _ _ h₂ hk1 hk2

theorem errSets_mseq {α β : Type} {x : M α} {y : M β}
    (hx : ErrSetsLastError x) (hy : ErrSetsLastError y) :
    ErrSetsLastError (mseq x y) :=
  errSets_mbind hx (fun _ => hy)

theorem errSets_emit (a : Action) : ErrSetsLastError (emit a) :=
  noErr_errSets (noErr_emit a)

theorem errSets_raiseSet {α : Type} (k : ErrKind) (m : String) :
    ErrSetsLastError (raiseSet (α := α) k m) := by
  intro s s' tr e h hk1 hk2
  have h1 := triple_eq_fst h
  cases triple_eq_thd h
  rw [← h1]

theorem errSets_raiseErr {α : Type} (k : ErrKind) (m : String)
    (hk : k = .packageUnavailable ∨ k = .pythonError) :
    ErrSetsLastError (raiseErr (α := α) k m) := by
  intro s s' tr e h hk1 hk2
  cases triple_eq_thd h
  rcases hk with h | h
  · exact absurd h hk1
  · exact absurd h hk2

theorem sendRaw_run (env : Env) (n : String) (s : ConnState) :
    sendRaw env n s =
      if env.sendOk then (s, [.sendMsg n], .ok ())
      else ({s with lastError := some "socket sending error"}, [.sendMsg n],
        .error ⟨.transportFailure, "socket sending error"⟩) := by
  cases hs : env.sendOk with
  | true => simp [sendRaw, mseq, mbind, emit, hs]
  | false => simp [sendRaw, mseq, mbind, emit, hs]

theorem errSets_sendRaw (env : Env) (n : String) :
    ErrSetsLastError (sendRaw env n) := by
  intro s s' tr e h hk1 hk2
  rw [sendRaw_run] at h
  split at h
  · cases triple_eq_thd h
  · have h1 := triple_eq_fst h
    cases triple_eq_thd h
    rw [← h1]

theorem errSets_postSendSingle (env : Env) (k : Nat) (n : String) :
    ErrSetsLastError (postSendSingle env k n) := by
  intro s s' tr e h hk1 hk2
  rw [postSendSingle_run] at h
  split at h
  · split at h
    · cases triple_eq_thd h
    · split at h
      · cases triple_eq_thd h
      · cases triple_eq_thd h
  · have h1 := triple_eq_fst h
    cases triple_eq_thd h
    rw [← h1]

theorem errSets_postSendSearch (env : Env) (k : Nat) (n : String) :
    ErrSetsLastError (postSendSearch env k n) := by
  intro s s' tr e h hk1 hk2
  rw [postSendSearch_run] at h
  split at h
  · split at h
    · have h1 := triple_eq_fst h
      cases triple_eq_thd h
      rw [← h1]
    · split at h
      · cases triple_eq_thd h
      · cases triple_eq_thd h
  · have h1 := triple_eq_fst h
    cases triple_eq_thd h
    rw [← h1]

theorem errSets_openOp_false (env : Env) : ErrSetsLastError (openOp env false) := by
  intro s s' tr e h hk1 hk2
  rw [openOp_false_run] at h
  split at h
  · cases triple_eq_thd h
  · split at h
    · cases triple_eq_thd h
    · split at h
      · cases triple_eq_thd h
      · have h1 := triple_eq_fst h
        cases triple_eq_thd h
        rw [← h1]

theorem noErr_start_tls (env : Env) (rsi : Bool) : NoErr (start_tls env rsi) := by
  unfold start_tls
  refine noErr_mseq (noErr_emit _) ?_
  intro s s' tr e h
  dsimp only at h
  split at h
  · cases triple_eq_thd h
  · refine noErr_mseq (noErr_modifyS _)
      (noErr_mseq (noErr_emit _) (noErr_mbind noErr_getS ?_)) _ _ _ _ h
    intro st
    dsimp only
    split
    · refine noErr_mseq ?_ (noErr_mret _)
      split
      · exact noErr_refresh env
      · exact noErr_mret _
    · split
      · exact noErr_mret _
      · exact noErr_mret _

theorem noErr_bindSetBound (result : Option ResultRec) : NoErr (bindSetBound result) :=
  noErr_modifyS _

theorem noErr_bindSetLastError (result : Option ResultRec) :
    NoErr (bindSetLastError result) :=
  noErr_modifyS _

theorem noErr_bindRefreshStep (env : Env) (rsi : Bool) :
    NoErr (bindRefreshStep env rsi) := by
  unfold bindRefreshStep
  refine noErr_mbind noErr_getS ?_
  intro st
  dsimp only
  split
  · exact noErr_refresh env
  · exact noErr_mret _

theorem errSets_bindResolutionResult (env : Env) (saslRet : Option ResultRec) :
    ErrSetsLastError (bindResolutionResult env saslRet) := by
  intro s s' tr e h hk1 hk2
  unfold bindResolutionResult at h
  split at h
  · cases triple_eq_thd h
  · split at h
    · cases triple_eq_thd h
    · split at h
      · cases triple_eq_thd h
      · have h1 := triple_eq_fst h
        cases triple_eq_thd h
        rw [← h1]

theorem errSets_ntlmBindRounds (env : Env) : ErrSetsLastError (ntlmBindRounds env) := by
  unfold ntlmBindRounds
  refine errSets_mbind (noErr_errSets noErr_getS) ?_
  intro st
  dsimp only
  split
  · exact errSets_raiseErr _ _ (Or.inr rfl)
  · split
    · exact errSets_raiseErr _ _ (Or.inl rfl)
    · refine errSets_mbind (errSets_postSendSingle env 0 _) ?_
      intro r1
      match r1 with
      | .resp =>
        dsimp only
        split
        · refine errSets_mseq (errSets_postSendSingle env 1 _) ?_
          split
          · exact errSets_mseq (errSets_postSendSingle env 2 _)
              (noErr_errSets (noErr_mret _))
          · exact noErr_errSets (noErr_mret _)
        · exact noErr_errSets (noErr_mret _)
      | .handle n => exact errSets_raiseErr _ _ (Or.inr rfl)
      | .strval v => exact errSets_raiseErr _ _ (Or.inr rfl)

theorem errSets_bindAuth (env : Env) (c : Option (List String)) :
    ErrSetsLastError (bindAuth env c) := by
  unfold bindAuth
  refine errSets_mbind (noErr_errSets noErr_getS) ?_
  intro st
  dsimp only
  match st.authentication with
  | .anonymous =>
    exact errSets_mseq (errSets_postSendSingle env 0 _) (noErr_errSets (noErr_mret _))
  | .simple =>
    exact errSets_mseq (errSets_postSendSingle env 0 _) (noErr_errSets (noErr_mret _))
  | .sasl =>
    dsimp only
    split
    · exact noErr_errSets (noErr_do_sasl_bind env c)
    · exact errSets_raiseSet _ _
  | .ntlm =>
    dsimp only
    split
    · exact errSets_ntlmBindRounds env
    · exact errSets_raiseSet _ _

theorem errSets_bindTail (env : Env) (rsi : Bool) (c : Option (List String)) :
    ErrSetsLastError (bindTail env rsi c) := by
  unfold bindTail
  refine errSets_mbind (errSets_bindAuth env c) ?_
  intro saslRet
  refine errSets_mbind (errSets_bindResolutionResult env saslRet) ?_
  intro result
  exact errSets_mseq (errSets_emit _)
    (errSets_mseq (noErr_errSets (noErr_bindSetBound result))
      (errSets_mseq (noErr_errSets (noErr_bindSetLastError result))
        (errSets_mseq (noErr_errSets (noErr_bindRefreshStep env rsi))
          (noErr_errSets noErr_bindFinish))))

theorem errSets_bindOpenStep (env : Env) : ErrSetsLastError (bindOpenStep env) := by
  unfold bindOpenStep
  refine errSets_mbind (noErr_errSets noErr_getS) ?_
  intro st
  dsimp only
  split
  · exact errSets_openOp_false env
  · exact noErr_errSets (noErr_mret _)

theorem errSets_bind (env : Env) (rsi : Bool) (c : Option (List String)) :
    ErrSetsLastError (bind env rsi c) := by
  unfold bind
  refine errSets_mseq (errSets_emit _) ?_
  intro s s' tr e h hk1 hk2
  dsimp only at h
  split at h
  · exact ((noErr_mseq (noErr_modifyS _) noErr_bindFinish) _ _ _ _ h).elim
  · exact (errSets_mseq (noErr_errSets (noErr_modifyS _))
      (errSets_mseq (errSets_bindOpenStep env) (errSets_bindTail env rsi c)))
      _ _ _ _ h hk1 hk2

theorem errSets_fire_deferred (env : Env) : ErrSetsLastError (fire_deferred env) := by
  intro s s' tr e h hk1 hk2
  unfold fire_deferred at h
  split at h
  · dsimp only at h
    rcases hb : (mseq (mbind getS (fun st =>
        if st.deferredOpen then openOp env false else mret ()))
      (mseq (mbind getS (fun st =>
          if st.deferredStartTls then mseq (start_tls env false) (mret ())
          else mret ()))
        (mseq (mbind getS (fun st =>
            if st.deferredBind then mseq (bind env false st.bindControls) (mret ())
            else mret ()))
          (refresh_server_info env))))
        {s with executingDeferred := true} with ⟨s₁, t₁, r₁⟩
    rw [hb] at h
    cases r₁ with
    | ok a =>
      cases triple_eq_thd h
    | error e₁ =>
      have h1 := triple_eq_fst h
      cases triple_eq_thd h
      have hset : s₁.lastError = some e.msg := by
        refine (errSets_mseq ?_ (errSets_mseq ?_ (errSets_mseq ?_
          (noErr_errSets (noErr_refresh env))))) _ _ _ _ hb hk1 hk2
        · refine errSets_mbind (noErr_errSets noErr_getS) ?_
          intro st
          dsimp only
          split
          · exact errSets_openOp_false env
          · exact noErr_errSets (noErr_mret _)
        · refine errSets_mbind (noErr_errSets noErr_getS) ?_
          intro st
          dsimp only
          split
          · exact errSets_mseq (noErr_errSets (noErr_start_tls env false))
              (noErr_errSets (noErr_mret _))
          · exact noErr_errSets (noErr_mret _)
        · refine errSets_mbind (noErr_errSets noErr_getS) ?_
          intro st
          dsimp only
          split
          · exact errSets_mseq (errSets_bind env false st.bindControls)
              (noErr_errSets (noErr_mret _))
          · exact noErr_errSets (noErr_mret _)
      rw [← h1]
      exact hset
  · cases triple_eq_thd h

theorem errSets_opFinish (env : Env) (k : Nat) (reqName respType : String) :
    ErrSetsLastError (opFinish env k reqName respType) := by
  unfold opFinish
  refine errSets_mbind (errSets_postSendSingle env k reqName) ?_
  intro psr
  refine errSets_mseq (noErr_errSets (noErr_modifyS _)) ?_
  match psr with
  | .handle n => exact noErr_errSets (noErr_mret _)
  | .strval v => exact noErr_errSets (noErr_mret _)
  | .resp =>
    dsimp only
    refine errSets_mbind (noErr_errSets noErr_getS) ?_
    intro st
    dsimp only
    cases st.result with
    | none => exact errSets_raiseErr _ _ (Or.inr rfl)
    | some r => exact noErr_errSets (noErr_mret _)

theorem errSets_search (env : Env) (b f : String) (c : Option (List String)) :
    ErrSetsLastError (search env b f c) := by
  unfold search
  refine errSets_mseq (errSets_fire_deferred env) ?_
  refine errSets_mbind (errSets_postSendSearch env 0 _) ?_
  intro psr
  refine errSets_mseq (noErr_errSets (noErr_modifyS _)) ?_
  match psr with
  | .handle n => exact noErr_errSets (noErr_mret _)
  | .resp =>
    dsimp only
    refine errSets_mbind (noErr_errSets noErr_getS) ?_
    intro st
    dsimp only
    cases st.result with
    | none => exact errSets_raiseErr _ _ (Or.inr rfl)
    | some r => exact noErr_errSets (noErr_mret _)
  | .strval v =>
    dsimp only
    refine errSets_mbind (noErr_errSets noErr_getS) ?_
    intro st
    dsimp only
    cases st.result with
    | none => exact errSets_raiseErr _ _ (Or.inr rfl)
    | some r => exact noErr_errSets (noErr_mret _)

theorem errSets_add (env : Env) (dn : String) (oc : Option (List String))
    (attrs : List (String × List String)) (c : Option (List String)) :
    ErrSetsLastError (add env dn oc attrs c) := by
  unfold add
  refine errSets_mseq (errSets_fire_deferred env) ?_
  intro s s' tr e h hk1 hk2
  dsimp only at h
  split at h
  · split at h
    · have h1 := triple_eq_fst h
      cases triple_eq_thd h
      rw [← h1]
    · exact errSets_opFinish env 0 "addRequest" "addResponse" _ _ _ _ h hk1 hk2
  · split at h
    · have h1 := triple_eq_fst h
      cases triple_eq_thd h
      rw [← h1]
    · exact errSets_opFinish env 0 "addRequest" "addResponse" _ _ _ _ h hk1 hk2

theorem errSets_readOnlyRaise {α : Type} {s s' : ConnState} {tr : List Action}
    {e : LDAPError} (h : readOnlyRaise (α := α) s = (s', tr, .error e)) :
    s'.lastError = some e.msg := by
  have h1 := triple_eq_fst h
  cases triple_eq_thd h
  rw [← h1]

theorem errSets_delete (env : Env) (dn : String) (c : Option (List String)) :
    ErrSetsLastError (delete env dn c) := by
  unfold delete
  refine errSets_mseq (errSets_fire_deferred env) ?_
  intro s s' tr e h hk1 hk2
  dsimp only at h
  split at h
  · exact errSets_readOnlyRaise h
  · exact errSets_opFinish env 0 "delRequest" "delResponse" _ _ _ _ h hk1 hk2

theorem errSets_modify (env : Env) (dn : String) (changes : ChangesInput)
    (c : Option (List String)) : ErrSetsLastError (modify env dn changes c) := by
  unfold modify
  refine errSets_mseq (errSets_fire_deferred env) ?_
  intro s s' tr e h hk1 hk2
  dsimp only at h
  split at h
  · exact errSets_readOnlyRaise h
  · cases changes with
    | notMapping =>
      have h1 := triple_eq_fst h
      cases triple_eq_thd h
      rw [← h1]
    | mapping l =>
      dsimp only at h
      split at h
      · have h1 := triple_eq_fst h
        cases triple_eq_thd h
        rw [← h1]
      · cases hv : validateChanges l with
        | some e₁ =>
          rw [hv] at h
          have h1 := triple_eq_fst h
          cases triple_eq_thd h
          rw [← h1]
        | none =>
          rw [hv] at h
          exact errSets_opFinish env 0 "modifyRequest" "modifyResponse" _ _ _ _ h hk1 hk2

theorem errSets_modify_dn (env : Env) (dn rdn : String) (del : Bool)
    (ns : Option String) (c : Option (List String)) :
    ErrSetsLastError (modify_dn env dn rdn del ns c) := by
  unfold modify_dn
  refine errSets_mseq (errSets_fire_deferred env) ?_
  intro s s' tr e h hk1 hk2
  dsimp only at h
  split at h
  · exact errSets_readOnlyRaise h
  · split at h
    · have h1 := triple_eq_fst h
      cases triple_eq_thd h
      rw [← h1]
    · exact errSets_opFinish env 0 "modDNRequest" "modDNResponse" _ _ _ _ h hk1 hk2

theorem errSets_abandon (env : Env) (mid : Nat) (c : Option (List String)) :
    ErrSetsLastError (abandon env mid c) := by
  unfold abandon
  refine errSets_mseq (errSets_fire_deferred env) ?_
  intro s s' tr e h hk1 hk2
  dsimp only at h
  split at h
  · cases hl : s.outstanding.lookup mid with
    | some ty =>
      rw [hl] at h
      dsimp only at h
      split at h
      · cases triple_eq_thd h
      · exact (errSets_mseq (errSets_sendRaw env _)
          (errSets_mseq (noErr_errSets (noErr_modifyS _))
            (noErr_errSets (noErr_mret _)))) _ _ _ _ h hk1 hk2
    | none =>
      rw [hl] at h
      cases triple_eq_thd h
  · cases triple_eq_thd h

theorem errSets_unbind (env : Env) (c : Option (List String)) :
    ErrSetsLastError (unbind env c) := by
  intro s s' tr e h hk1 hk2
  rw [unbind_run] at h
  split at h
  · cases triple_eq_thd h
  · split at h
    · split at h
      · cases triple_eq_thd h
      · have h1 := triple_eq_fst h
        cases triple_eq_thd h
        rw [← h1]
    · cases triple_eq_thd h

/-- C6: counterexample — the `LDAPPackageUnavailableError` raise of the NTLM
authentication path of `bind` (line 407 of the source) surfaces without
setting `last_error`: on an open NTLM session with domain-qualified
credentials and the ntlm package absent, `bind` raises the
MissingPackage-kind error while the final state's `lastError` is still
`none`, refuting "every detected error kind sets the session-visible
`lastError` description before the exception is raised". -/
theorem ntlm_package_error_skips_last_error :
    bind envNoNtlm true none sNtlm =
      ({sNtlm with deferredBind := false, bindControls := none},
        [.bindCall true none],
        .error ⟨.packageUnavailable, "package ntlm3 not present"⟩) ∧
    ({sNtlm with deferredBind := false, bindControls := none} : ConnState).lastError
      = none :=
  ⟨rfl, rfl⟩

/-- C6 (amended): every error the engine detects — other than the
missing-ntlm-package raise of `bind` (which skips `last_error`) and plain
Python errors (`ValueError`/`TypeError` crashes, which no engine code
intercepts; the unreachable `AttributeSetUnmatched` raise of `_get_entries`
is of this trace-free kind too) — sets the session-visible `lastError` to
its description before the exception surfaces, in every operation: `bind`,
`unbind`, `search`, `add`, `delete`, `modify`, `modify_dn`, `abandon`,
`start_tls` (which never raises), `refresh_server_info` (which never
raises) and the deferred-resolution pass. -/
theorem detected_errors_set_last_error (env : Env) :
    (∀ rsi c, ErrSetsLastError (bind env rsi c)) ∧
    (∀ c, ErrSetsLastError (unbind env c)) ∧
    (∀ b f c, ErrSetsLastError (search env b f c)) ∧
    (∀ dn oc attrs c, ErrSetsLastError (add env dn oc attrs c)) ∧
    (∀ dn c, ErrSetsLastError (delete env dn c)) ∧
    (∀ dn ch c, ErrSetsLastError (modify env dn ch c)) ∧
    (∀ dn rdn del ns c, ErrSetsLastError (modify_dn env dn rdn del ns c)) ∧
    (∀ mid c, ErrSetsLastError (abandon env mid c)) ∧
    (∀ rsi, ErrSetsLastError (start_tls env rsi)) ∧
    ErrSetsLastError (refresh_server_info env) ∧
    ErrSetsLastError (fire_deferred env) :=
  ⟨fun rsi c => errSets_bind env rsi c,
   fun c => errSets_unbind env c,
   fun b f c => errSets_search env b f c,
   fun dn oc attrs c => errSets_add env dn oc attrs c,
   fun dn c => errSets_delete env dn c,
   fun dn ch c => errSets_modify env dn ch c,
   fun dn rdn del ns c => errSets_modify_dn env dn rdn del ns c,
   fun mid c => errSets_abandon env mid c,
   fun rsi => noErr_errSets (noErr_start_tls env rsi),
   noErr_errSets (noErr_refresh env),
   errSets_fire_deferred env⟩

theorem detected_errors_set_last_error_witness :
    ∃ s' tr e, delete envOk "cn=x,o=test" none sReadOnly = (s', tr, .error e) ∧
      e.kind ≠ ErrKind.packageUnavailable ∧ e.kind ≠ ErrKind.pythonError ∧
      s'.lastError = some e.msg := by
  rcases hres : delete envOk "cn=x,o=test" none sReadOnly with ⟨sR, trR, rR⟩
  have hcase : rR = .error ⟨.readOnlyViolation, "connection is read-only"⟩ := by
    have : delete envOk "cn=x,o=test" none sReadOnly =
        ({sReadOnly with lastError := some "connection is read-only"}, [],
          .error ⟨.readOnlyViolation, "connection is read-only"⟩) := rfl
    rw [this] at hres
    exact (triple_eq_thd hres).symm
  subst hcase
  exact ⟨sR, trR, _, rfl, by decide, by decide,
    (detected_errors_set_last_error envOk).2.2.2.2.1 "cn=x,o=test" none sReadOnly
      sR trR _ hres (by decide) (by decide)⟩
end Ldap3
